import Mathlib

/-!
Shallow embedding of the Gobblet rule engine, game state machine, strategy
layer and record serialization (src/src/gobblet/{piece,board,game,player,moves}.py),
with theorems checking the frozen claims about the specification.

Conventions of the embedding:
* Python `PieceSize`/`PieceColor` enums become inductives with their `.value`
  projections.
* A `BoardPosition` stack (Python list, top piece last) is a `List Piece`
  with the TOP piece at the HEAD (the Python list reversed); `add_piece`
  pushes at the head, `remove_top_piece` pops the head, `top_piece` is `head?`.
* Mutating methods returning `bool` become functions returning `Option`
  (success carries the updated value) or `Bool × State` where a failure path
  can still have mutated state (as in `GobbletGame._execute_piece_move`).
* Machine integers are `Nat`/`Int`; board coordinates are `Nat` (all Python
  call sites guard with `0 <= row < size` before indexing).
-/

namespace Gobblet

/-- Embeds `piece.PieceColor` (two-valued enum with `.value` strings). -/
inductive PieceColor
  | LIGHT
  | DARK
deriving DecidableEq, Repr

/-- Embeds `PieceColor.value` (`"light"` / `"dark"`). -/
def PieceColor.value : PieceColor → String
  | .LIGHT => "light"
  | .DARK => "dark"

/-- Embeds the `PieceColor(<string>)` enum constructor; `none` models the
`ValueError` Python raises on an unknown value. -/
def PieceColor.fromValue : String → Option PieceColor
  | "light" => some .LIGHT
  | "dark" => some .DARK
  | _ => none

/-- The other color (spec vocabulary: "opponent's color" / "opposite color"). -/
def PieceColor.opposite : PieceColor → PieceColor
  | .LIGHT => .DARK
  | .DARK => .LIGHT

/-- Embeds `piece.PieceSize` (SMALL=1, MEDIUM=2, LARGE=3). -/
inductive PieceSize
  | SMALL
  | MEDIUM
  | LARGE
deriving DecidableEq, Repr

/-- Embeds `PieceSize.value`. -/
def PieceSize.value : PieceSize → Nat
  | .SMALL => 1
  | .MEDIUM => 2
  | .LARGE => 3

/-- Embeds the `PieceSize(<int>)` enum constructor. -/
def PieceSize.fromValue : Nat → Option PieceSize
  | 1 => some .SMALL
  | 2 => some .MEDIUM
  | 3 => some .LARGE
  | _ => none

/-- Iteration order of `for size in PieceSize` in Python (declaration order). -/
def PieceSize.all : List PieceSize := [.SMALL, .MEDIUM, .LARGE]

/-- Embeds `piece.Piece` (color, size, unique id).  The mutable `position`
attribute lives in the game layer (`GPiece`); board stacks only ever read
`color` and `size`, and `__eq__`/`__hash__` use `piece_id` only. -/
structure Piece where
  color : PieceColor
  size : PieceSize
  piece_id : Int
deriving DecidableEq, Repr

/-- Embeds `Piece.can_cover`: strictly larger size covers. -/
def Piece.can_cover (p other : Piece) : Bool :=
  decide (other.size.value < p.size.value)

/-- Embeds Python `==` on pieces (`Piece.__eq__` compares `piece_id` only). -/
def Piece.eqPy (p q : Piece) : Bool :=
  p.piece_id == q.piece_id

/-- Embeds `BoardPosition.top_piece` (`pieces[-1]`, our head). -/
def BoardPosition.top_piece (st : List Piece) : Option Piece :=
  st.head?

/-- Embeds `BoardPosition.is_empty`. -/
def BoardPosition.is_empty (st : List Piece) : Bool :=
  st.isEmpty

/-- Embeds `BoardPosition.add_piece`: rejects unless the stack is empty or the
new piece can cover the current top; on success pushes the piece. -/
def BoardPosition.add_piece (st : List Piece) (p : Piece) : Option (List Piece) :=
  match st with
  | [] => some [p]
  | top :: rest => if p.can_cover top then some (p :: top :: rest) else none

/-- Embeds `BoardPosition.remove_top_piece` (returns popped piece and the
remaining stack). -/
def BoardPosition.remove_top_piece (st : List Piece) : Option Piece × List Piece :=
  match st with
  | [] => (none, [])
  | top :: rest => (some top, rest)

/-- Embeds `board.Board`: an N×N grid of stacks.  The Python list-of-lists is
embedded as a function from coordinates to stacks (out-of-range coordinates
are only ever read through guards, matching `_is_valid_position`). -/
structure Board where
  size : Nat
  positions : Nat → Nat → List Piece

/-- Embeds `Board.__init__`: every position an empty stack. -/
def Board.mkEmpty (size : Nat) : Board :=
  { size, positions := fun _ _ => [] }

/-- Writing one grid cell (the embedding of in-place mutation of
`self.positions[row][col]`). -/
def Board.setPos (b : Board) (row col : Nat) (st : List Piece) : Board :=
  { b with positions := fun r c => if r = row ∧ c = col then st else b.positions r c }

/-- Embeds `Board._is_valid_position`. -/
def Board.is_valid_position (b : Board) (row col : Nat) : Bool :=
  decide (row < b.size) && decide (col < b.size)

/-- Embeds `Board.get_top_piece`. -/
def Board.get_top_piece (b : Board) (row col : Nat) : Option Piece :=
  if b.is_valid_position row col then BoardPosition.top_piece (b.positions row col)
  else none

/-- Embeds `Board.is_position_empty`. -/
def Board.is_position_empty (b : Board) (row col : Nat) : Bool :=
  if b.is_valid_position row col then BoardPosition.is_empty (b.positions row col)
  else false

/-- Embeds `Board.remove_piece`: pops the top piece at a valid position;
returns the piece (or `none`) together with the updated board. -/
def Board.remove_piece (b : Board) (row col : Nat) : Option Piece × Board :=
  if b.is_valid_position row col then
    match b.positions row col with
    | [] => (none, b)
    | top :: rest => (some top, b.setPos row col rest)
  else (none, b)

/-- The four-at-most lines through a cell inspected by
`Board._is_blocking_three_in_row`: its row, its column, the main diagonal
when `row == col`, and the anti-diagonal when `row + col == size - 1`. -/
def Board.lines_through (b : Board) (row col : Nat) : List (List (Nat × Nat)) :=
  [(List.range b.size).map (fun c => (row, c))] ++
  [(List.range b.size).map (fun r => (r, col))] ++
  (if row = col then [(List.range b.size).map (fun i => (i, i))] else []) ++
  (if row + col = b.size - 1 then [(List.range b.size).map (fun i => (i, b.size - 1 - i))] else [])

/-- Embeds `Board._line_has_three_in_row_threat`: the line holds exactly 3
opponent-topped cells and the target cell is one of them (the Python single
pass accumulating `opponent_count` and `target_pos_has_opponent` is split
into a count and a scan over the same predicate). -/
def Board.line_has_three_in_row_threat (b : Board) (line : List (Nat × Nat))
    (opponent_color : PieceColor) (target_pos : Nat × Nat) : Bool :=
  (decide (line.countP (fun pos =>
      match b.get_top_piece pos.1 pos.2 with
      | some top => decide (top.color = opponent_color)
      | none => false) = 3)) &&
  line.any (fun pos =>
    (match b.get_top_piece pos.1 pos.2 with
     | some top => decide (top.color = opponent_color)
     | none => false) && decide (pos = target_pos))

/-- Embeds `Board._is_blocking_three_in_row`. -/
def Board.is_blocking_three_in_row (b : Board) (row col : Nat) (opponent_color : PieceColor) : Bool :=
  (b.lines_through row col).any
    (fun line => b.line_has_three_in_row_threat line opponent_color (row, col))

/-- Embeds `Board._is_placement_valid`.  Empty cell: always valid; otherwise
requires opposite color and strict size cover, and for a NEW piece
additionally the 3-in-a-row blocking exception. -/
def Board.is_placement_valid (b : Board) (p : Piece) (row col : Nat) (is_new_piece : Bool) : Bool :=
  match BoardPosition.top_piece (b.positions row col) with
  | none => true
  | some top =>
    if top.color = p.color then false
    else if ¬ p.can_cover top then false
    else if is_new_piece then b.is_blocking_three_in_row row col top.color
    else true

/-- Embeds `Board.place_piece` (Python defaults `is_new_piece=True`; the
default is spelled out at every call site here).  `some b'` is the `True`
return with the updated board; `none` is `False` with no mutation. -/
def Board.place_piece (b : Board) (p : Piece) (row col : Nat) (is_new_piece : Bool) : Option Board :=
  if ¬ b.is_valid_position row col then none
  else if ¬ b.is_placement_valid p row col is_new_piece then none
  else
    match BoardPosition.add_piece (b.positions row col) p with
    | some st => some (b.setPos row col st)
    | none => none

/-- Embeds `Board._check_line`.  Python indexes `positions[0]` after the
length guard, so an empty argument (possible only for `size = 0` diagonals,
where Python would raise `IndexError`) is mapped to `none`; every caller
passes lines of length `size`, so the embedding is faithful for `size ≥ 1`. -/
def Board.check_line (b : Board) (positions : List (Nat × Nat)) : Option PieceColor :=
  if positions.length < b.size then none
  else
    match positions with
    | [] => none
    | p0 :: rest =>
      match b.get_top_piece p0.1 p0.2 with
      | none => none
      | some first_piece =>
        if rest.all (fun q =>
            match b.get_top_piece q.1 q.2 with
            | some pc => decide (pc.color = first_piece.color)
            | none => false)
        then some first_piece.color else none

/-- The lines scanned by `Board.check_winner`, in scan order: all rows, all
columns, main diagonal, anti-diagonal. -/
def Board.lines (b : Board) : List (List (Nat × Nat)) :=
  ((List.range b.size).map (fun row => (List.range b.size).map (fun col => (row, col)))) ++
  ((List.range b.size).map (fun col => (List.range b.size).map (fun row => (row, col)))) ++
  [(List.range b.size).map (fun i => (i, i))] ++
  [(List.range b.size).map (fun i => (i, b.size - 1 - i))]

/-- Embeds `Board.check_winner`: returns the first line's winner in scan
order, else `none`. -/
def Board.check_winner (b : Board) : Option PieceColor :=
  b.lines.findSome? b.check_line

/-- Embeds `Board.is_board_full`. -/
def Board.is_board_full (b : Board) : Bool :=
  (List.range b.size).all (fun row =>
    (List.range b.size).all (fun col => !(b.is_position_empty row col)))

/-- Loop body of `Board.get_valid_moves_for_new_piece`: what one cell
contributes — itself when empty, itself when its top is a strictly smaller
opponent piece that is part of a 3-in-a-row threat, nothing otherwise. -/
def Board.new_piece_cell (b : Board) (color : PieceColor) (piece_size : PieceSize)
    (row col : Nat) : Option (Nat × Nat) :=
  if b.is_position_empty row col then some (row, col)
  else
    match b.get_top_piece row col with
    | some top_piece =>
      if (!(decide (top_piece.color = color))) &&
          decide (top_piece.size.value < piece_size.value) &&
          b.is_blocking_three_in_row row col top_piece.color
      then some (row, col) else none
    | none => none

/-- Embeds `Board.get_valid_moves_for_new_piece`: empty cells, plus occupied
cells whose top is a strictly smaller opponent piece that is part of a
3-in-a-row threat. -/
def Board.get_valid_moves_for_new_piece (b : Board) (color : PieceColor) (piece_size : PieceSize) :
    List (Nat × Nat) :=
  (List.range b.size).flatMap (fun row =>
    (List.range b.size).filterMap (fun col => b.new_piece_cell color piece_size row col))

/-- Loop body of `Board.get_valid_moves_for_existing_piece`: itself when
empty, itself when its top is a strictly smaller opponent piece, nothing
otherwise. -/
def Board.existing_piece_cell (b : Board) (color : PieceColor) (piece_size : PieceSize)
    (row col : Nat) : Option (Nat × Nat) :=
  if b.is_position_empty row col then some (row, col)
  else
    match b.get_top_piece row col with
    | some top_piece =>
      if (!(decide (top_piece.color = color))) &&
          decide (top_piece.size.value < piece_size.value)
      then some (row, col) else none
    | none => none

/-- Embeds `Board.get_valid_moves_for_existing_piece`: empty cells, plus
occupied cells whose top is a strictly smaller opponent piece (no threat
requirement). -/
def Board.get_valid_moves_for_existing_piece (b : Board) (color : PieceColor) (piece_size : PieceSize) :
    List (Nat × Nat) :=
  (List.range b.size).flatMap (fun row =>
    (List.range b.size).filterMap (fun col => b.existing_piece_cell color piece_size row col))

/-- Embeds `Board.copy`: rebuilds each stack bottom-to-top through
`place_piece(..., is_new_piece=False)`, silently dropping a piece whose
placement fails (Python ignores the returned bool). -/
def Board.copy (b : Board) : Board :=
  (List.range b.size).foldl (fun nb row =>
    (List.range b.size).foldl (fun nb col =>
      ((b.positions row col).reverse).foldl (fun nb piece =>
        match nb.place_piece piece row col false with
        | some nb' => nb'
        | none => nb) nb) nb) (Board.mkEmpty b.size)

/-!
Game layer (`game.py`).  Python pieces carry a mutable `position` attribute;
the game layer is embedded over `GPiece` (piece value plus that cached
attribute), kept per player in the `GameState`.  `MoveTracker` recording is
pure append-only bookkeeping that never feeds back into game logic; it is
modelled separately for the serialization claims.
-/

/-- A Python `Piece` object as the game layer sees it: the immutable piece
value plus the mutable cached `position` attribute. -/
structure GPiece where
  piece : Piece
  position : Option (Nat × Nat)
deriving DecidableEq, Repr

/-- The `move_data` dict handed back by `choose_move`: optional keys read via
`dict.get` (absent key = `None`). -/
structure MoveData where
  piece : Option GPiece
  position : Option (Nat × Nat)
  from_position : Option (Nat × Nat)
  to_position : Option (Nat × Nat)
deriving DecidableEq, Repr

/-- The `(move_type, move_data)` pair returned by a strategy; `move_type` is a
raw string in Python, so it is a `String` here (anything other than
`"place"`/`"move"` is a structurally invalid move). -/
structure MoveChoice where
  move_type : String
  data : MoveData
deriving DecidableEq, Repr

/-- A `("place", {piece, position})` choice. -/
def placeMove (gp : GPiece) (pos : Nat × Nat) : MoveChoice :=
  ⟨"place", ⟨some gp, some pos, none, none⟩⟩

/-- A `("move", {piece, from_position, to_position})` choice; the piece object
handed over is the board's top piece, whose cached position is its cell. -/
def moveMove (p : Piece) (from_pos to_pos : Nat × Nat) : MoveChoice :=
  ⟨"move", ⟨some ⟨p, some from_pos⟩, none, some from_pos, some to_pos⟩⟩

/-- The sentinel `("place", {piece: None, position: None})` returned by
`RandomPlayer.choose_move` when no legal move exists. -/
def sentinelMove : MoveChoice :=
  ⟨"place", ⟨none, none, none, none⟩⟩

/-- Embeds the mutable state of `GobbletGame` (players are reduced to their
color and piece lists; `current_player` to its color). -/
structure GameState where
  board : Board
  light_pieces : List GPiece
  dark_pieces : List GPiece
  current_color : PieceColor
  turn_count : Nat
  max_turns : Nat
  game_over : Bool
  winner : Option PieceColor

/-- The current player's piece list. -/
def GameState.current_pieces (s : GameState) : List GPiece :=
  match s.current_color with
  | .LIGHT => s.light_pieces
  | .DARK => s.dark_pieces

/-- Embeds the `piece.position = ...` attribute mutation: updates the entry
with the given id (Python mutates the passed object, which an honest strategy
aliases with the inventory entry of the same id). -/
def setPiecePosition (l : List GPiece) (id : Int) (pos : Option (Nat × Nat)) : List GPiece :=
  l.map (fun g => if g.piece.piece_id = id then { g with position := pos } else g)

/-- Applies an update to the current player's piece list. -/
def GameState.update_current_pieces (s : GameState) (f : List GPiece → List GPiece) : GameState :=
  match s.current_color with
  | .LIGHT => { s with light_pieces := f s.light_pieces }
  | .DARK => { s with dark_pieces := f s.dark_pieces }

/-- Embeds `GobbletGame._get_opponent_color`. -/
def GameState.get_opponent_color (s : GameState) : PieceColor :=
  if s.current_color = PieceColor.LIGHT then PieceColor.DARK else PieceColor.LIGHT

/-- Embeds `GobbletGame._end_game`. -/
def GameState.end_game (s : GameState) (winner : Option PieceColor) : GameState :=
  { s with game_over := true, winner := winner }

/-- Embeds `GobbletGame._switch_player`. -/
def GameState.switch_player (s : GameState) : GameState :=
  { s with current_color :=
      if s.current_color = PieceColor.LIGHT then PieceColor.DARK else PieceColor.LIGHT }

/-- Embeds `GobbletGame._execute_place_move`.  Checks, in order: both keys
present (Python truthiness: `None` falsy, pieces and 2-tuples truthy), the
piece owned by the current player (`in` uses id equality), the piece off
board (cached `position is None`), then delegates to
`Board.place_piece(..., is_new_piece=True)` (the Python default). -/
def GameState.execute_place_move (s : GameState) (move_data : MoveData) : Bool × GameState :=
  match move_data.piece, move_data.position with
  | some gp, some pos =>
    if ¬ (s.current_pieces.any (fun q => q.piece.eqPy gp.piece)) then (false, s)
    else if gp.position.isSome then (false, s)
    else
      match s.board.place_piece gp.piece pos.1 pos.2 true with
      | some b' =>
        (true, { s.update_current_pieces (setPiecePosition · gp.piece.piece_id (some pos)) with
                   board := b' })
      | none => (false, s)
  | _, _ => (false, s)

/-- Embeds `GobbletGame._execute_piece_move`.  NOTE (faithful to the source):
both the placement at the destination and the "put piece back" restore call
`Board.place_piece` without the `is_new_piece` argument, so they run under
the NEW-piece covering rule (`is_new_piece=True`), and a failed restore is
silently ignored — the failure paths can leave the board mutated, which is
why this returns `Bool × GameState` rather than `Option GameState`. -/
def GameState.execute_piece_move (s : GameState) (move_data : MoveData) : Bool × GameState :=
  match move_data.piece, move_data.from_position, move_data.to_position with
  | some gp, some fp, some tp =>
    if ¬ (s.current_pieces.any (fun q => q.piece.eqPy gp.piece)) then (false, s)
    else if ¬ ((s.board.get_top_piece fp.1 fp.2).any (fun t => t.eqPy gp.piece)) then (false, s)
    else
      match s.board.remove_piece fp.1 fp.2 with
      | (removed, b1) =>
        if ¬ (removed.any (fun t => t.eqPy gp.piece)) then
          match removed with
          | some rp =>
            match b1.place_piece rp fp.1 fp.2 true with
            | some b2 => (false, { s with board := b2 })
            | none => (false, { s with board := b1 })
          | none => (false, { s with board := b1 })
        else
          let s1 := { s.update_current_pieces (setPiecePosition · gp.piece.piece_id none) with
                        board := b1 }
          match b1.place_piece gp.piece tp.1 tp.2 true with
          | some b2 =>
            (true, { s1.update_current_pieces (setPiecePosition · gp.piece.piece_id (some tp)) with
                       board := b2 })
          | none =>
            match b1.place_piece gp.piece fp.1 fp.2 true with
            | some b3 =>
              (false, { s1.update_current_pieces (setPiecePosition · gp.piece.piece_id (some fp)) with
                          board := b3 })
            | none => (false, s1)
  | _, _, _ => (false, s)

/-- Embeds `GobbletGame._execute_move` (dispatch on the move-type string). -/
def GameState.execute_move (s : GameState) (mv : MoveChoice) : Bool × GameState :=
  if mv.move_type = "place" then s.execute_place_move mv.data
  else if mv.move_type = "move" then s.execute_piece_move mv.data
  else (false, s)

/-- Embeds `GobbletGame.play_turn`.  The strategy call is an oracle argument:
`none` models `choose_move` raising an exception (the `except` branch);
`some mv` is the returned move.  The Python bool result ("continue?") is
recoverable as `¬ game_over` of the returned state. -/
def GameState.play_turn (s : GameState) (chosen : Option MoveChoice) : GameState :=
  if s.game_over then s
  else
    let s1 : GameState := { s with turn_count := s.turn_count + 1 }
    if s1.max_turns < s1.turn_count then s1.end_game none
    else
      match chosen with
      | none => s1.end_game (some s1.get_opponent_color)
      | some mv =>
        let r := s1.execute_move mv
        if r.1 = false then (r.2).end_game (some (r.2).get_opponent_color)
        else
          match (r.2).board.check_winner with
          | some w => (r.2).end_game (some w)
          | none =>
            if (r.2).board.is_board_full then (r.2).end_game none
            else (r.2).switch_player

/-!
Strategy layer (`player.py`).  Strategies are functions of the board, the
player's piece list and color; the global `random` stream consumed by
`random.choice` is abstracted as a `pick : Nat` index (uniform choice over
the fully materialized move list = an arbitrary in-range index).
-/

/-- Embeds `Player._init_pieces`: 3 pieces of each size, ids `0..8` for light
and `12..20` for dark, sizes in enum order SMALL, MEDIUM, LARGE. -/
def Player.init_pieces (color : PieceColor) : List GPiece :=
  let start : Int := if color = PieceColor.LIGHT then 0 else 12
  (List.range 9).map (fun k =>
    { piece := { color := color, size := PieceSize.all.getD (k / 3) PieceSize.SMALL,
                 piece_id := start + (k : Int) },
      position := none })

/-- Embeds `Player.get_available_pieces` (cached `position is None`). -/
def Player.get_available_pieces (pieces : List GPiece) : List GPiece :=
  pieces.filter (fun g => g.position.isNone)

/-- Embeds `Player.get_pieces_on_board`: scans the board row-major for top
pieces owned by this player (membership by id equality). -/
def Player.get_pieces_on_board (b : Board) (pieces : List GPiece) :
    List (Piece × (Nat × Nat)) :=
  (List.range b.size).flatMap (fun row =>
    (List.range b.size).filterMap (fun col =>
      match b.get_top_piece row col with
      | some top => if pieces.any (fun g => g.piece.eqPy top) then some (top, (row, col)) else none
      | none => none))

/-- Embeds the move-list construction in `RandomPlayer.choose_move`: all New
placements for every reserve piece, then all relocations (to a different
cell) for every own top piece on the board. -/
def RandomPlayer.possible_moves (b : Board) (pieces : List GPiece) (color : PieceColor) :
    List MoveChoice :=
  let available := Player.get_available_pieces pieces
  let on_board := Player.get_pieces_on_board b pieces
  (available.flatMap (fun gp =>
    (b.get_valid_moves_for_new_piece color gp.piece.size).map (fun pos => placeMove gp pos))) ++
  (on_board.flatMap (fun pc =>
    (b.get_valid_moves_for_existing_piece color pc.1.size).filterMap (fun new_pos =>
      if new_pos = pc.2 then none else some (moveMove pc.1 pc.2 new_pos))))

/-- Embeds `RandomPlayer.choose_move`: the sentinel when no move exists, else
`random.choice` over the materialized list (pick index abstracted). -/
def RandomPlayer.choose_move (b : Board) (pieces : List GPiece) (color : PieceColor)
    (pick : Nat) : MoveChoice :=
  let ms := RandomPlayer.possible_moves b pieces color
  match ms with
  | [] => sentinelMove
  | _ => ms.getD (pick % ms.length) sentinelMove

/-- All board cells in the row-major order of the nested `for` scans. -/
def allPositions (b : Board) : List (Nat × Nat) :=
  (List.range b.size).flatMap (fun row => (List.range b.size).map (fun col => (row, col)))

/-- Embeds `GreedyPlayer._would_win`: clone the board, remove the piece from
its cached position when on board, tentatively place (NEW-piece rule — the
Python call leaves `is_new_piece` at its `True` default) and test the winner. -/
def GreedyPlayer.would_win (b : Board) (self_color : PieceColor) (gp : GPiece)
    (pos : Nat × Nat) : Bool :=
  let tb := b.copy
  let tb := match gp.position with
    | some cur => (tb.remove_piece cur.1 cur.2).2
    | none => tb
  match tb.place_piece gp.piece pos.1 pos.2 true with
  | some tb2 => decide (tb2.check_winner = some self_color)
  | none => false

/-- Embeds `GreedyPlayer._would_block_win`: false when the cell is topped by
a non-opponent piece, else true iff our piece can be placed there after
removing it from its cached position (again under the NEW-piece default). -/
def GreedyPlayer.would_block_win (b : Board) (gp : GPiece) (pos : Nat × Nat)
    (opponent_color : PieceColor) : Bool :=
  let tb := b.copy
  let own_topped := match tb.get_top_piece pos.1 pos.2 with
    | some existing => decide (existing.color ≠ opponent_color)
    | none => false
  if own_topped then false
  else
    let tb := match gp.position with
      | some cur => (tb.remove_piece cur.1 cur.2).2
      | none => tb
    (tb.place_piece gp.piece pos.1 pos.2 true).isSome

/-- Embeds `GreedyPlayer._find_move_for_color`: row-major scan; at each cell
first all reserve pieces, then all own board pieces; first hypothetical win
returned. -/
def GreedyPlayer.find_move_for_color (b : Board) (pieces : List GPiece)
    (self_color color : PieceColor) : Option MoveChoice :=
  (allPositions b).findSome? (fun pos =>
    if color = self_color then
      match (Player.get_available_pieces pieces).findSome? (fun gp =>
          if GreedyPlayer.would_win b self_color gp pos then some (placeMove gp pos) else none) with
      | some m => some m
      | none =>
        (Player.get_pieces_on_board b pieces).findSome? (fun pc =>
          if GreedyPlayer.would_win b self_color ⟨pc.1, some pc.2⟩ pos
          then some (moveMove pc.1 pc.2 pos) else none)
    else none)

/-- Embeds `GreedyPlayer._find_blocking_move`. -/
def GreedyPlayer.find_blocking_move (b : Board) (pieces : List GPiece)
    (self_color : PieceColor) : Option MoveChoice :=
  let opponent_color := if self_color = PieceColor.LIGHT then PieceColor.DARK else PieceColor.LIGHT
  (allPositions b).findSome? (fun pos =>
    match (Player.get_available_pieces pieces).findSome? (fun gp =>
        if GreedyPlayer.would_block_win b gp pos opponent_color
        then some (placeMove gp pos) else none) with
    | some m => some m
    | none =>
      (Player.get_pieces_on_board b pieces).findSome? (fun pc =>
        if GreedyPlayer.would_block_win b ⟨pc.1, some pc.2⟩ pos opponent_color
        then some (moveMove pc.1 pc.2 pos) else none))

/-- `abs(a - c)` on Python ints, for `Nat` coordinates. -/
def natDist (a c : Nat) : Nat := max a c - min a c

/-- Embeds `GreedyPlayer._get_center_positions`: cells grouped by ascending
Manhattan distance to `size // 2`, row-major within a distance. -/
def GreedyPlayer.get_center_positions (b : Board) : List (Nat × Nat) :=
  let center := b.size / 2
  (List.range (center + 1)).flatMap (fun distance =>
    (List.range b.size).flatMap (fun row =>
      (List.range b.size).filterMap (fun col =>
        if natDist row center + natDist col center = distance then some (row, col) else none)))

/-- Insert into a size-descending list, before the first strictly smaller
element (so equal sizes keep their original relative order). -/
def insertBySizeDesc (g : GPiece) : List GPiece → List GPiece
  | [] => [g]
  | h :: t =>
    if h.piece.size.value < g.piece.size.value then g :: h :: t
    else h :: insertBySizeDesc g t

/-- Embeds `list.sort(key=lambda p: p.size.value, reverse=True)`: stable
descending insertion sort by size (Python's sort is stable, and with
`reverse=True` equal keys keep their original order, as they do here). -/
def sortBySizeDesc : List GPiece → List GPiece
  | [] => []
  | h :: t => insertBySizeDesc h (sortBySizeDesc t)

/-- The deterministic part of `GreedyPlayer._make_strategic_move`: reserve
pieces in stable size-descending order; for each, the first valid center
position, else the first valid position at all. -/
def GreedyPlayer.strategic_scan (b : Board) (pieces : List GPiece)
    (self_color : PieceColor) : Option MoveChoice :=
  let center_positions := GreedyPlayer.get_center_positions b
  let available := sortBySizeDesc (Player.get_available_pieces pieces)
  available.findSome? (fun gp =>
    let valid_positions := b.get_valid_moves_for_new_piece self_color gp.piece.size
    let center_valid := center_positions.filter (fun pos => valid_positions.contains pos)
    match center_valid.head? with
    | some pos => some (placeMove gp pos)
    | none =>
      match valid_positions.head? with
      | some pos => some (placeMove gp pos)
      | none => none)

/-- Embeds `GreedyPlayer._make_strategic_move`: the scan above, else the
fallback `RandomPlayer(self.color)` — a FRESH random player whose inventory
is a brand-new full set of nine off-board pieces (`Player.init_pieces`). -/
def GreedyPlayer.make_strategic_move (b : Board) (pieces : List GPiece)
    (self_color : PieceColor) (pick : Nat) : MoveChoice :=
  match GreedyPlayer.strategic_scan b pieces self_color with
  | some m => m
  | none => RandomPlayer.choose_move b (Player.init_pieces self_color) self_color pick

/-- Embeds `GreedyPlayer.choose_move`: winning move, else blocking move, else
strategic move. -/
def GreedyPlayer.choose_move (b : Board) (pieces : List GPiece) (self_color : PieceColor)
    (pick : Nat) : MoveChoice :=
  match GreedyPlayer.find_move_for_color b pieces self_color self_color with
  | some m => m
  | none =>
    match GreedyPlayer.find_blocking_move b pieces self_color with
    | some m => m
    | none => GreedyPlayer.make_strategic_move b pieces self_color pick

/-- The random-free phases of `GreedyPlayer.choose_move` in order; `none`
exactly when the player delegates to the fresh random fallback. -/
def GreedyPlayer.deterministic_scan (b : Board) (pieces : List GPiece)
    (self_color : PieceColor) : Option MoveChoice :=
  match GreedyPlayer.find_move_for_color b pieces self_color self_color with
  | some m => some m
  | none =>
    match GreedyPlayer.find_blocking_move b pieces self_color with
    | some m => some m
    | none => GreedyPlayer.strategic_scan b pieces self_color

/-- Embeds `DefensivePlayer._find_winning_move` (same shape as greedy's but
testing moves inline on board clones). -/
def DefensivePlayer.find_winning_move (b : Board) (pieces : List GPiece)
    (self_color : PieceColor) : Option MoveChoice :=
  (allPositions b).findSome? (fun pos =>
    match (Player.get_available_pieces pieces).findSome? (fun gp =>
        match b.copy.place_piece gp.piece pos.1 pos.2 true with
        | some tb2 => if tb2.check_winner = some self_color then some (placeMove gp pos) else none
        | none => none) with
    | some m => some m
    | none =>
      (Player.get_pieces_on_board b pieces).findSome? (fun pc =>
        match ((b.copy.remove_piece pc.2.1 pc.2.2).2).place_piece pc.1 pos.1 pos.2 true with
        | some tb2 => if tb2.check_winner = some self_color then some (moveMove pc.1 pc.2 pos) else none
        | none => none))

/-- The sequential size loop of `DefensivePlayer._opponent_could_win_here`:
the clone is mutated across iterations (place test piece, check, remove). -/
def DefensivePlayer.opp_win_loop (tb : Board) (pos : Nat × Nat)
    (opponent_color : PieceColor) : List PieceSize → Bool
  | [] => false
  | sz :: rest =>
    match tb.place_piece { color := opponent_color, size := sz, piece_id := -1 } pos.1 pos.2 true with
    | some tb2 =>
      if tb2.check_winner = some opponent_color then true
      else DefensivePlayer.opp_win_loop ((tb2.remove_piece pos.1 pos.2).2) pos opponent_color rest
    | none => DefensivePlayer.opp_win_loop tb pos opponent_color rest

/-- Embeds `DefensivePlayer._opponent_could_win_here`: tries all three sizes
as hypothetical opponent placements on one clone. -/
def DefensivePlayer.opponent_could_win_here (b : Board) (pos : Nat × Nat)
    (opponent_color : PieceColor) : Bool :=
  DefensivePlayer.opp_win_loop b.copy pos opponent_color PieceSize.all

/-- Embeds `DefensivePlayer._find_blocking_move`: cover the first threatened
cell with the first reserve piece that is on an empty cell or can cover. -/
def DefensivePlayer.find_blocking_move (b : Board) (pieces : List GPiece)
    (self_color : PieceColor) : Option MoveChoice :=
  let opponent_color := if self_color = PieceColor.LIGHT then PieceColor.DARK else PieceColor.LIGHT
  (allPositions b).findSome? (fun pos =>
    if DefensivePlayer.opponent_could_win_here b pos opponent_color then
      (Player.get_available_pieces pieces).findSome? (fun gp =>
        match b.get_top_piece pos.1 pos.2 with
        | none => some (placeMove gp pos)
        | some existing => if gp.piece.can_cover existing then some (placeMove gp pos) else none)
    else none)

/-- Order-preserving first-occurrence dedup (the `seen` set loop at the end
of `DefensivePlayer._get_strategic_positions`). -/
def pyDedupGo (seen : List (Nat × Nat)) : List (Nat × Nat) → List (Nat × Nat)
  | [] => []
  | x :: xs => if seen.contains x then pyDedupGo seen xs else x :: pyDedupGo (x :: seen) xs

/-- Entry point of the dedup loop. -/
def pyDedup (l : List (Nat × Nat)) : List (Nat × Nat) :=
  pyDedupGo [] l

/-- Embeds `DefensivePlayer._get_strategic_positions`: corners, then center
block, then edges, deduplicated preserving order. -/
def DefensivePlayer.get_strategic_positions (b : Board) : List (Nat × Nat) :=
  let n := b.size
  let corners := [(0, 0), (0, n - 1), (n - 1, 0), (n - 1, n - 1)]
  let center := n / 2
  let centers := if n % 2 = 1 then [(center, center)]
    else [(center - 1, center - 1), (center - 1, center), (center, center - 1), (center, center)]
  let edges := (List.range n).flatMap (fun i => [(0, i), (n - 1, i), (i, 0), (i, n - 1)])
  pyDedup (corners ++ centers ++ edges)

/-- The deterministic part of `DefensivePlayer._make_defensive_move`: reserve
pieces in stable size-descending order over strategic positions, first cell
that is empty or coverable. -/
def DefensivePlayer.defensive_scan (b : Board) (pieces : List GPiece) : Option MoveChoice :=
  let strategic_positions := DefensivePlayer.get_strategic_positions b
  let available := sortBySizeDesc (Player.get_available_pieces pieces)
  available.findSome? (fun gp =>
    strategic_positions.findSome? (fun pos =>
      match b.get_top_piece pos.1 pos.2 with
      | none => some (placeMove gp pos)
      | some existing => if gp.piece.can_cover existing then some (placeMove gp pos) else none))

/-- Embeds `DefensivePlayer._make_defensive_move` (with
`_make_any_valid_move` inlined: it also constructs a FRESH
`RandomPlayer(self.color)` with a new full inventory). -/
def DefensivePlayer.make_defensive_move (b : Board) (pieces : List GPiece)
    (self_color : PieceColor) (pick : Nat) : MoveChoice :=
  match DefensivePlayer.defensive_scan b pieces with
  | some m => m
  | none => RandomPlayer.choose_move b (Player.init_pieces self_color) self_color pick

/-- Embeds `DefensivePlayer.choose_move`. -/
def DefensivePlayer.choose_move (b : Board) (pieces : List GPiece) (self_color : PieceColor)
    (pick : Nat) : MoveChoice :=
  match DefensivePlayer.find_winning_move b pieces self_color with
  | some m => m
  | none =>
    match DefensivePlayer.find_blocking_move b pieces self_color with
    | some m => m
    | none => DefensivePlayer.make_defensive_move b pieces self_color pick

/-- The random-free phases of `DefensivePlayer.choose_move` in order; `none`
exactly when the player delegates to the fresh random fallback. -/
def DefensivePlayer.deterministic_scan (b : Board) (pieces : List GPiece)
    (self_color : PieceColor) : Option MoveChoice :=
  match DefensivePlayer.find_winning_move b pieces self_color with
  | some m => some m
  | none =>
    match DefensivePlayer.find_blocking_move b pieces self_color with
    | some m => some m
    | none => DefensivePlayer.defensive_scan b pieces

/-!
Record layer (`moves.py`): the `Move` and `GameRecord` dataclasses and their
dict (de)serialization per the section-6 schema.
-/

/-- Modelled from the spec: Python `datetime` values (standard library, not
part of src/) appear in the schema only as opaque microsecond-precision
timestamps. -/
structure Datetime where
  usec : Nat
deriving DecidableEq, Repr

/-- Modelled from the spec: the ISO-8601 string `datetime.isoformat`
produces.  The standard library guarantees `fromisoformat (isoformat d) = d`
at microsecond precision; the string is abstracted as a wrapper marking the
serialized form, which encodes exactly that inverse-pair contract. -/
structure IsoTimestamp where
  raw : Datetime
deriving DecidableEq, Repr

/-- Models `datetime.isoformat`. -/
def Datetime.isoformat (d : Datetime) : IsoTimestamp := ⟨d⟩

/-- Models `datetime.fromisoformat`. -/
def Datetime.fromisoformat (s : IsoTimestamp) : Datetime := s.raw

/-- Embeds the `moves.Move` dataclass. -/
structure Move where
  player_color : PieceColor
  move_type : String
  piece_id : Int
  piece_size : PieceSize
  from_position : Option (Nat × Nat)
  to_position : Nat × Nat
  captured_piece_id : Option Int
  move_number : Nat
  timestamp : Datetime
deriving DecidableEq, Repr

/-- The dict produced by `Move.to_dict` (enum values unwrapped, timestamp
serialized). -/
structure MoveDict where
  player_color : String
  move_type : String
  piece_id : Int
  piece_size : Nat
  from_position : Option (Nat × Nat)
  to_position : Nat × Nat
  captured_piece_id : Option Int
  move_number : Nat
  timestamp : IsoTimestamp
deriving DecidableEq, Repr

/-- Embeds `Move.to_dict`. -/
def Move.to_dict (m : Move) : MoveDict :=
  { player_color := m.player_color.value
    move_type := m.move_type
    piece_id := m.piece_id
    piece_size := m.piece_size.value
    from_position := m.from_position
    to_position := m.to_position
    captured_piece_id := m.captured_piece_id
    move_number := m.move_number
    timestamp := m.timestamp.isoformat }

/-- Embeds `Move.from_dict`; `none` models the `ValueError` the enum
constructors raise on a bad color or size.  (`tuple(x) if x else None` on an
optional pair is the identity, since a 2-tuple is always truthy.) -/
def Move.from_dict (d : MoveDict) : Option Move :=
  match PieceColor.fromValue d.player_color, PieceSize.fromValue d.piece_size with
  | some player_color, some piece_size =>
    some { player_color := player_color
           move_type := d.move_type
           piece_id := d.piece_id
           piece_size := piece_size
           from_position := d.from_position
           to_position := d.to_position
           captured_piece_id := d.captured_piece_id
           move_number := d.move_number
           timestamp := Datetime.fromisoformat d.timestamp }
  | _, _ => none

/-- Embeds the `moves.GameRecord` dataclass.  `player_strategies` is a dict
with enum keys (embedded as an insertion-ordered association list);
`game_duration_seconds` is a Python float that is only ever passed through
untouched, embedded as an exact number. -/
structure GameRecord where
  game_id : String
  start_time : Datetime
  end_time : Option Datetime
  winner : Option PieceColor
  moves : List Move
  player_strategies : List (PieceColor × String)
  total_moves : Nat
  game_duration_seconds : Option Rat
deriving DecidableEq

/-- The dict produced by `GameRecord.to_dict`. -/
structure GameRecordDict where
  game_id : String
  start_time : IsoTimestamp
  end_time : Option IsoTimestamp
  winner : Option String
  moves : List MoveDict
  player_strategies : List (String × String)
  total_moves : Nat
  game_duration_seconds : Option Rat
deriving DecidableEq

/-- Embeds `GameRecord.to_dict`. -/
def GameRecord.to_dict (r : GameRecord) : GameRecordDict :=
  { game_id := r.game_id
    start_time := r.start_time.isoformat
    end_time := r.end_time.map Datetime.isoformat
    winner := r.winner.map PieceColor.value
    moves := r.moves.map Move.to_dict
    player_strategies := r.player_strategies.map (fun kv => (kv.1.value, kv.2))
    total_moves := r.total_moves
    game_duration_seconds := r.game_duration_seconds }

/-- A Python list/dict comprehension whose element conversion may raise:
first failure aborts the whole construction. -/
def optionList {α β : Type} (f : α → Option β) : List α → Option (List β)
  | [] => some []
  | x :: xs =>
    match f x, optionList f xs with
    | some y, some ys => some (y :: ys)
    | _, _ => none

/-- Embeds `GameRecord.from_dict`.  `PieceColor(data["winner"]) if
data["winner"] else None`: `None` and the empty string are falsy and give
`None`; any other bad string raises (`none` here). -/
def GameRecord.from_dict (d : GameRecordDict) : Option GameRecord :=
  match optionList Move.from_dict d.moves,
        optionList (fun kv => (PieceColor.fromValue kv.1).map (fun c => (c, kv.2)))
          d.player_strategies,
        (match d.winner with
         | none => some none
         | some w => if w.isEmpty then some none else (PieceColor.fromValue w).map some) with
  | some moves, some strategies, some winner =>
    some { game_id := d.game_id
           start_time := Datetime.fromisoformat d.start_time
           end_time := d.end_time.map Datetime.fromisoformat
           winner := winner
           moves := moves
           player_strategies := strategies
           total_moves := d.total_moves
           game_duration_seconds := d.game_duration_seconds }
  | _, _, _ => none

/-!
Spec-side predicates.  These follow the WORDS of the spec sentences the
claims quote (counting opponent-topped cells on a line, a line of `N` same
colored tops, ...), to be compared with the source-derived definitions
above.
-/

/-- The color of the visible (top) piece of a cell, if any. -/
def topColorAt (b : Board) (row col : Nat) : Option PieceColor :=
  (b.get_top_piece row col).map Piece.color

/-- Number of cells of the given row whose top piece has the given color. -/
def rowOppCount (b : Board) (opp : PieceColor) (row : Nat) : Nat :=
  (List.range b.size).countP (fun col => decide (topColorAt b row col = some opp))

/-- Number of cells of the given column whose top piece has the given color. -/
def colOppCount (b : Board) (opp : PieceColor) (col : Nat) : Nat :=
  (List.range b.size).countP (fun row => decide (topColorAt b row col = some opp))

/-- Number of main-diagonal cells whose top piece has the given color. -/
def diagOppCount (b : Board) (opp : PieceColor) : Nat :=
  (List.range b.size).countP (fun i => decide (topColorAt b i i = some opp))

/-- Number of anti-diagonal cells whose top piece has the given color. -/
def antiDiagOppCount (b : Board) (opp : PieceColor) : Nat :=
  (List.range b.size).countP (fun i => decide (topColorAt b i (b.size - 1 - i) = some opp))

/-- Spec wording of the open-three covering exception: the target cell is
opponent-topped and at least one line through it (its row, its column, and
any board diagonal passing through it) has exactly three opponent-topped
cells — the target being among those three since it is opponent-topped. -/
def openThreeAt (b : Board) (opp : PieceColor) (row col : Nat) : Prop :=
  topColorAt b row col = some opp ∧
  (rowOppCount b opp row = 3 ∨ colOppCount b opp col = 3 ∨
   (row = col ∧ diagOppCount b opp = 3) ∨
   (row + col = b.size - 1 ∧ antiDiagOppCount b opp = 3))

/-- Spec wording of the New-piece covering test for a piece of the given
color and size at a non-empty cell: the top piece is the opponent's, the
candidate's size strictly exceeds it, and the cell is an open three. -/
def specNewCover (b : Board) (color : PieceColor) (sz : PieceSize) (row col : Nat) : Prop :=
  topColorAt b row col = some color.opposite ∧
  (∃ top, b.get_top_piece row col = some top ∧ top.size.value < sz.value) ∧
  openThreeAt b color.opposite row col

/-- Spec wording of the relocation covering test: the top piece is the
opposite color and strictly smaller (no threat requirement). -/
def specRelocCover (b : Board) (color : PieceColor) (sz : PieceSize) (row col : Nat) : Prop :=
  topColorAt b row col = some color.opposite ∧
  (∃ top, b.get_top_piece row col = some top ∧ top.size.value < sz.value)

/-- Spec wording of "row `row` has all `N` top pieces colored `c`". -/
def rowWinSpec (b : Board) (c : PieceColor) (row : Nat) : Prop :=
  ∀ col < b.size, topColorAt b row col = some c

/-- Spec wording of "column `col` has all `N` top pieces colored `c`". -/
def colWinSpec (b : Board) (c : PieceColor) (col : Nat) : Prop :=
  ∀ row < b.size, topColorAt b row col = some c

/-- Spec wording of "the main diagonal has all `N` top pieces colored `c`". -/
def diagWinSpec (b : Board) (c : PieceColor) : Prop :=
  ∀ i < b.size, topColorAt b i i = some c

/-- Spec wording of "the anti-diagonal has all `N` top pieces colored `c`". -/
def antiDiagWinSpec (b : Board) (c : PieceColor) : Prop :=
  ∀ i < b.size, topColorAt b i (b.size - 1 - i) = some c

/-- Spec wording of "some row, some column, or one of the two main diagonals
has all `N` of its top pieces colored `c`". -/
def winsSpec (b : Board) (c : PieceColor) : Prop :=
  (∃ row < b.size, rowWinSpec b c row) ∨ (∃ col < b.size, colWinSpec b c col) ∨
  diagWinSpec b c ∨ antiDiagWinSpec b c

/-- The states reachable through the public mutating board operations: a
fresh board, a successful `place_piece`, or a `remove_piece`. -/
inductive BoardReachable : Board → Prop
  | init (n : Nat) : BoardReachable (Board.mkEmpty n)
  | place {b : Board} {p : Piece} {row col : Nat} {is_new : Bool} {b' : Board} :
      BoardReachable b → b.place_piece p row col is_new = some b' → BoardReachable b'
  | remove {b : Board} (row col : Nat) :
      BoardReachable b → BoardReachable (b.remove_piece row col).2

/-- Spec wording of the stack invariant: sizes strictly increase in push
order, i.e. strictly decrease from the top (our head) downward. -/
def stackSizesIncreasing (st : List Piece) : Prop :=
  List.Chain' (fun hi lo => lo.size.value < hi.size.value) st

instance {α : Type} {o : Option α} {P : α → Prop} [DecidablePred P] :
    Decidable (∃ a, o = some a ∧ P a) :=
  match o with
  | none => isFalse (by simp)
  | some a => decidable_of_iff (P a) (by simp)

instance (b : Board) (c : PieceColor) (row : Nat) : Decidable (rowWinSpec b c row) := by
  unfold rowWinSpec; infer_instance

instance (b : Board) (c : PieceColor) (col : Nat) : Decidable (colWinSpec b c col) := by
  unfold colWinSpec; infer_instance

instance (b : Board) (c : PieceColor) : Decidable (diagWinSpec b c) := by
  unfold diagWinSpec; infer_instance

instance (b : Board) (c : PieceColor) : Decidable (antiDiagWinSpec b c) := by
  unfold antiDiagWinSpec; infer_instance

instance (b : Board) (c : PieceColor) : Decidable (winsSpec b c) := by
  unfold winsSpec; infer_instance

instance (b : Board) (opp : PieceColor) (row col : Nat) : Decidable (openThreeAt b opp row col) := by
  unfold openThreeAt; infer_instance

instance (b : Board) (color : PieceColor) (sz : PieceSize) (row col : Nat) :
    Decidable (specNewCover b color sz row col) := by
  unfold specNewCover; infer_instance

instance (b : Board) (color : PieceColor) (sz : PieceSize) (row col : Nat) :
    Decidable (specRelocCover b color sz row col) := by
  unfold specRelocCover; infer_instance

/-!
Concrete fixtures used by witnesses, counterexamples and failing-input
evaluations.
-/

/-- A light LARGE piece (id 6, a light large in `_init_pieces` numbering). -/
def pieceL3 : Piece := ⟨.LIGHT, .LARGE, 6⟩

/-- A dark SMALL piece (id 12). -/
def pieceD1 : Piece := ⟨.DARK, .SMALL, 12⟩

/-- A light SMALL piece (id 0). -/
def pieceL1 : Piece := ⟨.LIGHT, .SMALL, 0⟩

/-- A light MEDIUM piece (id 3). -/
def pieceLM : Piece := ⟨.LIGHT, .MEDIUM, 3⟩

/-- A dark piece of the given size and id. -/
def mkDark (sz : PieceSize) (id : Int) : Piece := ⟨.DARK, sz, id⟩

/-- C2 failing input, board: light LARGE on top of dark SMALL at (0,0), a
light SMALL at (1,1), everything else empty (4×4). -/
def boardC2 : Board :=
  { size := 4
    positions := fun r c =>
      if r = 0 ∧ c = 0 then [pieceL3, pieceD1]
      else if r = 1 ∧ c = 1 then [pieceL1]
      else [] }

/-- C2 failing input, game state: light to move on `boardC2`. -/
def stateC2 : GameState :=
  { board := boardC2
    light_pieces := [⟨pieceL3, some (0, 0)⟩, ⟨pieceL1, some (1, 1)⟩]
    dark_pieces := [⟨pieceD1, some (0, 0)⟩]
    current_color := .LIGHT
    turn_count := 3
    max_turns := 200
    game_over := false
    winner := none }

/-- C2 failing input, move data: relocate the light LARGE from (0,0) onto the
own light SMALL at (1,1) — the destination placement is illegal, so the
atomicity guarantee is what is being exercised. -/
def moveDataC2 : MoveData := ⟨some ⟨pieceL3, some (0, 0)⟩, none, some (0, 0), some (1, 1)⟩

/-- C8 counterexample board (4×4): light MEDIUM over a dark SMALL at (0,0),
dark SMALL tops at (0,1) and (0,2), dark LARGE tops everywhere else.  Greedy
finds no winning, blocking or strategic move here and must delegate to the
random fallback, which has several legal moves to pick from. -/
def boardC8 : Board :=
  { size := 4
    positions := fun r c =>
      if r = 0 ∧ c = 0 then [pieceLM, mkDark .SMALL 12]
      else if r = 0 ∧ c = 1 then [mkDark .SMALL 13]
      else if r = 0 ∧ c = 2 then [mkDark .SMALL 14]
      else [mkDark .LARGE (20 + 4 * (r : Int) + (c : Int))] }

/-- C8 counterexample inventory: all nine light pieces carry an on-board
cached position (empty reserve); only the MEDIUM with id 3 is physically on
the board, at (0,0). -/
def piecesC8 : List GPiece :=
  (Player.init_pieces .LIGHT).map (fun g =>
    if g.piece.piece_id = 3 then { g with position := some (0, 0) }
    else { g with position := some (3, 3) })

/-- C10 board (4×4): every cell topped by a dark LARGE piece — no empty cell
and nothing a light piece could cover. -/
def boardC10 : Board :=
  { size := 4, positions := fun r c => [mkDark .LARGE (40 + 4 * (r : Int) + (c : Int))] }

/-- C10 inventory: all nine light pieces marked on-board (empty reserve) and
none of them a top piece, so the light side has no legal move at all. -/
def piecesC10 : List GPiece :=
  (Player.init_pieces .LIGHT).map (fun g => { g with position := some (3, 3) })

/-- C10 game state: light to move with no legal move available. -/
def stateC10 : GameState :=
  { board := boardC10
    light_pieces := piecesC10
    dark_pieces := Player.init_pieces .DARK
    current_color := .LIGHT
    turn_count := 7
    max_turns := 200
    game_over := false
    winner := none }

/-- C3 counterexample board (3×3): row 0 all light tops, row 1 all dark tops
— both colors have a complete line simultaneously. -/
def boardDbl : Board :=
  { size := 3
    positions := fun r c =>
      if r = 0 then [⟨.LIGHT, .SMALL, (c : Int)⟩]
      else if r = 1 then [⟨.DARK, .SMALL, (12 + c : Int)⟩]
      else [] }

/-- C1 witness board (the spec §8 scenario): dark SMALL pieces at (0,0),
(0,1), (0,2) on an otherwise empty 4×4 board — an open three for dark. -/
def boardOpen3 : Board :=
  { size := 4
    positions := fun r c =>
      if r = 0 ∧ c ≤ 2 then [⟨.DARK, .SMALL, (12 + c : Int)⟩] else [] }

/-- C3 witness board: a 1×1 board with a light top — a complete light line. -/
def boardUnit : Board :=
  { size := 1, positions := fun _ _ => [pieceL1] }

/-- Fresh game state (the `GobbletGame.__init__` configuration on a 4×4
board): both full inventories, light to move, turn 0, cap 200. -/
def stateFresh : GameState :=
  { board := Board.mkEmpty 4
    light_pieces := Player.init_pieces .LIGHT
    dark_pieces := Player.init_pieces .DARK
    current_color := .LIGHT
    turn_count := 0
    max_turns := 200
    game_over := false
    winner := none }

/-- A legal opening move for the witness runs: place the light SMALL id 0 at
(0,0). -/
def moveFresh : MoveChoice := placeMove ⟨pieceL1, none⟩ (0, 0)

/-- The board `place_piece pieceL1 0 0` produces from an empty 4×4 board
(C4 witness). -/
def boardW4 : Board := (Board.mkEmpty 4).setPos 0 0 [pieceL1]

/-!
Theorems.  General-purpose lemmas about the embedding first, then one
theorem per claim (with witnesses and counterexamples where required).
-/

theorem get_top_piece_in_range (b : Board) {row col : Nat} (hr : row < b.size)
    (hc : col < b.size) : b.get_top_piece row col = (b.positions row col).head? := by
  simp [Board.get_top_piece, Board.is_valid_position, BoardPosition.top_piece, hr, hc]

theorem topMatch_iff (b : Board) (q : Nat × Nat) (col0 : PieceColor) :
    ((match b.get_top_piece q.1 q.2 with
      | some pc => decide (pc.color = col0)
      | none => false) = true) ↔ topColorAt b q.1 q.2 = some col0 := by
  cases h : b.get_top_piece q.1 q.2 <;> simp [topColorAt, h]

theorem PieceColor.ne_iff_opposite {a c : PieceColor} : a ≠ c ↔ a = c.opposite := by
  cases a <;> cases c <;> simp [PieceColor.opposite]

theorem PieceColor.eq_or_opposite (a c : PieceColor) : a = c ∨ a = c.opposite := by
  cases a <;> cases c <;> simp [PieceColor.opposite]

theorem can_cover_iff (p top : Piece) :
    p.can_cover top = true ↔ top.size.value < p.size.value := by
  simp [Piece.can_cover]

/-- C4: for every board state reachable through the public board operations,
every cell's stack is strictly size-increasing in push order — each pushed
piece's size strictly exceeds the size of the piece it covers. -/
theorem C4_stack_sizes_increasing {b : Board} (h : BoardReachable b) :
    ∀ row col, stackSizesIncreasing (b.positions row col) := by
  induction h with
  | init n =>
    intro r c
    simp [Board.mkEmpty, stackSizesIncreasing]
  | @place b p row col is_new b' _ hpl ih =>
    simp only [Board.place_piece] at hpl
    split at hpl
    · exact absurd hpl (by simp)
    split at hpl
    · exact absurd hpl (by simp)
    rcases hadd : BoardPosition.add_piece (b.positions row col) p with _ | st
    · rw [hadd] at hpl; exact absurd hpl (by simp)
    rw [hadd] at hpl
    simp only [Option.some.injEq] at hpl
    subst hpl
    intro r c
    by_cases hrc : r = row ∧ c = col
    · simp only [Board.setPos, hrc, and_self, if_true]
      rcases hst : b.positions row col with _ | ⟨top, rest⟩ <;> rw [hst] at hadd <;>
        simp only [BoardPosition.add_piece] at hadd
      · simp only [Option.some.injEq] at hadd
        subst hadd
        simp [stackSizesIncreasing]
      · by_cases hcov : p.can_cover top = true
        · rw [if_pos hcov] at hadd
          simp only [Option.some.injEq] at hadd
          subst hadd
          refine List.Chain'.cons ((can_cover_iff p top).mp hcov) ?_
          have := ih row col
          rw [hst] at this
          exact this
        · rw [if_neg hcov] at hadd
          exact absurd hadd (by simp)
    · simpa [Board.setPos, hrc] using ih r c
  | @remove b row col _ ih =>
    intro r c
    simp only [Board.remove_piece]
    split
    · rcases hst : b.positions row col with _ | ⟨top, rest⟩
      · exact ih r c
      · by_cases hrc : r = row ∧ c = col
        · simp only [Board.setPos, hrc, and_self, if_true]
          have := ih row col
          rw [hst] at this
          exact List.Chain'.tail this
        · simpa [Board.setPos, hrc] using ih r c
    · exact ih r c

/-- Witness for C4 at a concrete reachable board: one successful placement
on the empty 4×4 board. -/
theorem C4_stack_sizes_increasing_witness : stackSizesIncreasing (boardW4.positions 0 0) :=
  C4_stack_sizes_increasing
    (@BoardReachable.place (Board.mkEmpty 4) pieceL1 0 0 true boardW4
      (BoardReachable.init 4) rfl) 0 0

theorem pieceColorValueRoundtrip (c : PieceColor) : PieceColor.fromValue c.value = some c := by
  cases c <;> rfl

theorem pieceSizeValueRoundtrip (s : PieceSize) : PieceSize.fromValue s.value = some s := by
  cases s <;> rfl

theorem Move.from_dict_to_dict (m : Move) : Move.from_dict m.to_dict = some m := by
  rcases m with ⟨pc, mt, pid, psz, fp, tp, cid, mn, ts⟩
  cases pc <;> cases psz <;> rfl

theorem optionList_map {α β : Type} {f : β → Option α} {g : α → β}
    (h : ∀ x, f (g x) = some x) : ∀ l : List α, optionList f (l.map g) = some l
  | [] => rfl
  | x :: xs => by simp [optionList, h x, optionList_map h xs]

/-- C9: serializing a `GameRecord` to the section-6 schema and parsing the
result back yields a record equal field-for-field to the original, including
every move. -/
theorem C9_record_roundtrip (r : GameRecord) : GameRecord.from_dict r.to_dict = some r := by
  rcases r with ⟨gid, st, et, w, mvs, ps, tm, dur⟩
  have hkv : ∀ x : PieceColor × String,
      (fun kv : String × String => (PieceColor.fromValue kv.1).map (fun c => (c, kv.2)))
        ((fun kv : PieceColor × String => (kv.1.value, kv.2)) x) = some x := by
    rintro ⟨c, s⟩
    cases c <;> rfl
  unfold GameRecord.to_dict GameRecord.from_dict
  rw [optionList_map Move.from_dict_to_dict, optionList_map hkv]
  rcases w with _ | c
  · rcases et with _ | t <;> rfl
  · cases c <;> rcases et with _ | t <;> rfl

theorem countP_line_pred (b : Board) (opp : PieceColor) (g : Nat → Nat × Nat) (n : Nat) :
    ((List.range n).map g).countP (fun pos =>
        match b.get_top_piece pos.1 pos.2 with
        | some top => decide (top.color = opp)
        | none => false) =
      (List.range n).countP (fun i => decide (topColorAt b (g i).1 (g i).2 = some opp)) := by
  rw [List.countP_map]
  refine List.countP_congr (fun i _ => ?_)
  cases h : b.get_top_piece (g i).1 (g i).2 <;>
    simp [topColorAt, h, Function.comp]

theorem line_threat_map_iff (b : Board) (opp : PieceColor) (g : Nat → Nat × Nat)
    {target : Nat × Nat} (htarget : ∃ i < b.size, g i = target)
    (htop : topColorAt b target.1 target.2 = some opp) :
    b.line_has_three_in_row_threat ((List.range b.size).map g) opp target = true ↔
      (List.range b.size).countP
          (fun i => decide (topColorAt b (g i).1 (g i).2 = some opp)) = 3 := by
  unfold Board.line_has_three_in_row_threat
  rw [Bool.and_eq_true, countP_line_pred]
  have hany : (((List.range b.size).map g).any (fun pos =>
      (match b.get_top_piece pos.1 pos.2 with
       | some top => decide (top.color = opp)
       | none => false) && decide (pos = target))) = true := by
    rcases htarget with ⟨i, hi, hgi⟩
    refine List.any_eq_true.mpr ⟨target, List.mem_map.mpr ⟨i, List.mem_range.mpr hi, hgi⟩, ?_⟩
    rw [Bool.and_eq_true]
    exact ⟨(topMatch_iff b target opp).mpr htop, by simp⟩
  simp [hany]

theorem row_threat_iff (b : Board) (opp : PieceColor) {row col : Nat} (hc : col < b.size)
    (htop : topColorAt b row col = some opp) :
    b.line_has_three_in_row_threat ((List.range b.size).map (fun c0 => (row, c0))) opp
        (row, col) = true ↔ rowOppCount b opp row = 3 :=
  line_threat_map_iff b opp _ ⟨col, hc, rfl⟩ htop

theorem col_threat_iff (b : Board) (opp : PieceColor) {row col : Nat} (hr : row < b.size)
    (htop : topColorAt b row col = some opp) :
    b.line_has_three_in_row_threat ((List.range b.size).map (fun r0 => (r0, col))) opp
        (row, col) = true ↔ colOppCount b opp col = 3 :=
  line_threat_map_iff b opp _ ⟨row, hr, rfl⟩ htop

theorem diag_threat_iff (b : Board) (opp : PieceColor) {row col : Nat} (hr : row < b.size)
    (hd : row = col) (htop : topColorAt b row col = some opp) :
    b.line_has_three_in_row_threat ((List.range b.size).map (fun i => (i, i))) opp
        (row, col) = true ↔ diagOppCount b opp = 3 :=
  line_threat_map_iff b opp _ ⟨row, hr, by rw [← hd]⟩ htop

theorem anti_threat_iff (b : Board) (opp : PieceColor) {row col : Nat} (hr : row < b.size)
    (hc : col < b.size) (ha : row + col = b.size - 1)
    (htop : topColorAt b row col = some opp) :
    b.line_has_three_in_row_threat ((List.range b.size).map (fun i => (i, b.size - 1 - i))) opp
        (row, col) = true ↔ antiDiagOppCount b opp = 3 :=
  line_threat_map_iff b opp _ ⟨row, hr, by
    have : b.size - 1 - row = col := by omega
    rw [this]⟩ htop

theorem is_blocking_iff (b : Board) {opp : PieceColor} {row col : Nat}
    (hr : row < b.size) (hc : col < b.size) (htop : topColorAt b row col = some opp) :
    b.is_blocking_three_in_row row col opp = true ↔
      (rowOppCount b opp row = 3 ∨ colOppCount b opp col = 3 ∨
       (row = col ∧ diagOppCount b opp = 3) ∨
       (row + col = b.size - 1 ∧ antiDiagOppCount b opp = 3)) := by
  unfold Board.is_blocking_three_in_row Board.lines_through
  by_cases hd : row = col
  · subst hd
    by_cases ha : row + row = b.size - 1
    · rw [if_pos rfl, if_pos ha]
      simp only [List.any_append, List.any_cons, List.any_nil, Bool.or_false, Bool.or_eq_true]
      rw [row_threat_iff b opp hc htop, col_threat_iff b opp hr htop,
        diag_threat_iff b opp hr rfl htop, anti_threat_iff b opp hr hc ha htop]
      tauto
    · rw [if_pos rfl, if_neg ha]
      simp only [List.any_append, List.any_cons, List.any_nil, Bool.or_false, Bool.or_eq_true]
      rw [row_threat_iff b opp hc htop, col_threat_iff b opp hr htop,
        diag_threat_iff b opp hr rfl htop]
      tauto
  · by_cases ha : row + col = b.size - 1
    · rw [if_neg hd, if_pos ha]
      simp only [List.any_append, List.any_cons, List.any_nil, Bool.or_false, Bool.or_eq_true]
      rw [row_threat_iff b opp hc htop, col_threat_iff b opp hr htop,
        anti_threat_iff b opp hr hc ha htop]
      tauto
    · rw [if_neg hd, if_neg ha]
      simp only [List.any_append, List.any_cons, List.any_nil, Bool.or_false, Bool.or_eq_true]
      rw [row_threat_iff b opp hc htop, col_threat_iff b opp hr htop]
      tauto

theorem place_piece_isSome_iff (b : Board) (p : Piece) {r c : Nat} (hr : r < b.size)
    (hc : c < b.size) (is_new : Bool) :
    (b.place_piece p r c is_new).isSome = true ↔
      (b.positions r c = [] ∨
        ∃ top rest, b.positions r c = top :: rest ∧ top.color ≠ p.color ∧
          top.size.value < p.size.value ∧
          (is_new = true → b.is_blocking_three_in_row r c top.color = true)) := by
  have hval : b.is_valid_position r c = true := by
    simp [Board.is_valid_position, hr, hc]
  unfold Board.place_piece Board.is_placement_valid BoardPosition.add_piece BoardPosition.top_piece
  rcases hst : b.positions r c with _ | ⟨top, rest⟩
  · simp [hval]
  · by_cases hcol : top.color = p.color
    · simp [hval, hcol]
    · by_cases hcov : p.can_cover top = true
      · have hsz := (can_cover_iff p top).mp hcov
        cases is_new
        · simp [hval, hcol, hcov, hsz]
        · by_cases hblk : b.is_blocking_three_in_row r c top.color = true
          · simp [hval, hcol, hcov, hsz, hblk]
          · simp [hval, hcol, hcov, hblk]
      · have hsz : ¬ top.size.value < p.size.value := by
          intro h
          exact hcov ((can_cover_iff p top).mpr h)
        simp [hval, hcol, hcov, hsz]

theorem specRelocCover_iff (b : Board) (color : PieceColor) (sz : PieceSize) {r c : Nat}
    (hr : r < b.size) (hc : c < b.size) :
    specRelocCover b color sz r c ↔
      ∃ top rest, b.positions r c = top :: rest ∧ top.color ≠ color ∧
        top.size.value < sz.value := by
  rcases hst : b.positions r c with _ | ⟨top, rest⟩
  · simp [specRelocCover, topColorAt, get_top_piece_in_range b hr hc, hst]
  · simp [specRelocCover, topColorAt, get_top_piece_in_range b hr hc, hst,
      PieceColor.ne_iff_opposite]

theorem specNewCover_iff (b : Board) (color : PieceColor) (sz : PieceSize) {r c : Nat}
    (hr : r < b.size) (hc : c < b.size) :
    specNewCover b color sz r c ↔
      ∃ top rest, b.positions r c = top :: rest ∧ top.color ≠ color ∧
        top.size.value < sz.value ∧ b.is_blocking_three_in_row r c top.color = true := by
  rcases hst : b.positions r c with _ | ⟨top, rest⟩
  · simp [specNewCover, openThreeAt, topColorAt, get_top_piece_in_range b hr hc, hst]
  · by_cases hcolor : top.color = color.opposite
    · have htop : topColorAt b r c = some top.color := by
        simp [topColorAt, get_top_piece_in_range b hr hc, hst, BoardPosition.top_piece]
      have hblk := is_blocking_iff b hr hc htop
      simp only [specNewCover, openThreeAt, topColorAt, get_top_piece_in_range b hr hc, hst]
      simp [← hcolor, hblk, PieceColor.ne_iff_opposite, BoardPosition.top_piece]
    · have hne : ¬ (top.color ≠ color) := fun h => hcolor (PieceColor.ne_iff_opposite.mp h)
      simp [specNewCover, openThreeAt, topColorAt, get_top_piece_in_range b hr hc, hst,
        hcolor, hne]

theorem existing_cell_shape {b : Board} {color : PieceColor} {sz : PieceSize}
    {row col : Nat} {x : Nat × Nat} (h : b.existing_piece_cell color sz row col = some x) :
    x = (row, col) := by
  unfold Board.existing_piece_cell at h
  split at h
  · exact (Option.some.inj h).symm
  · split at h
    · split at h
      · exact (Option.some.inj h).symm
      · exact absurd h (by simp)
    · exact absurd h (by simp)

theorem new_cell_shape {b : Board} {color : PieceColor} {sz : PieceSize}
    {row col : Nat} {x : Nat × Nat} (h : b.new_piece_cell color sz row col = some x) :
    x = (row, col) := by
  unfold Board.new_piece_cell at h
  split at h
  · exact (Option.some.inj h).symm
  · split at h
    · split at h
      · exact (Option.some.inj h).symm
      · exact absurd h (by simp)
    · exact absurd h (by simp)

theorem mem_valid_existing (b : Board) (color : PieceColor) (sz : PieceSize) (r c : Nat) :
    (r, c) ∈ b.get_valid_moves_for_existing_piece color sz ↔
      r < b.size ∧ c < b.size ∧ b.existing_piece_cell color sz r c = some (r, c) := by
  unfold Board.get_valid_moves_for_existing_piece
  simp only [List.mem_flatMap, List.mem_filterMap, List.mem_range]
  constructor
  · rintro ⟨row, hrow, col, hcol, hsome⟩
    obtain ⟨hr1, hc1⟩ := Prod.mk.injEq .. ▸ (existing_cell_shape hsome)
    subst hr1; subst hc1
    exact ⟨hrow, hcol, hsome⟩
  · rintro ⟨hrow, hcol, hsome⟩
    exact ⟨r, hrow, c, hcol, hsome⟩

theorem existing_cell_iff (b : Board) (color : PieceColor) (sz : PieceSize) {r c : Nat}
    (hr : r < b.size) (hc : c < b.size) :
    b.existing_piece_cell color sz r c = some (r, c) ↔
      (b.positions r c = [] ∨ specRelocCover b color sz r c) := by
  rw [specRelocCover_iff b color sz hr hc]
  unfold Board.existing_piece_cell
  rcases hst : b.positions r c with _ | ⟨top, rest⟩
  · simp [Board.is_position_empty, Board.is_valid_position, hr, hc, BoardPosition.is_empty, hst]
  · by_cases hcol : top.color = color
    · simp [Board.is_position_empty, Board.is_valid_position, hr, hc, BoardPosition.is_empty,
        hst, get_top_piece_in_range b hr hc, BoardPosition.top_piece, hcol]
    · by_cases hsz : top.size.value < sz.value
      · simp [Board.is_position_empty, Board.is_valid_position, hr, hc, BoardPosition.is_empty,
          hst, get_top_piece_in_range b hr hc, BoardPosition.top_piece, hcol, hsz]
      · simp [Board.is_position_empty, Board.is_valid_position, hr, hc, BoardPosition.is_empty,
          hst, get_top_piece_in_range b hr hc, BoardPosition.top_piece, hcol, hsz]

theorem new_cell_iff (b : Board) (color : PieceColor) (sz : PieceSize) {r c : Nat}
    (hr : r < b.size) (hc : c < b.size) :
    b.new_piece_cell color sz r c = some (r, c) ↔
      (b.positions r c = [] ∨ specNewCover b color sz r c) := by
  rw [specNewCover_iff b color sz hr hc]
  unfold Board.new_piece_cell
  rcases hst : b.positions r c with _ | ⟨top, rest⟩
  · simp [Board.is_position_empty, Board.is_valid_position, hr, hc, BoardPosition.is_empty, hst]
  · by_cases hcol : top.color = color
    · simp [Board.is_position_empty, Board.is_valid_position, hr, hc, BoardPosition.is_empty,
        hst, get_top_piece_in_range b hr hc, BoardPosition.top_piece, hcol]
    · by_cases hsz : top.size.value < sz.value
      · by_cases hblk : b.is_blocking_three_in_row r c top.color = true
        · simp [Board.is_position_empty, Board.is_valid_position, hr, hc, BoardPosition.is_empty,
            hst, get_top_piece_in_range b hr hc, BoardPosition.top_piece, hcol, hsz, hblk]
        · simp [Board.is_position_empty, Board.is_valid_position, hr, hc, BoardPosition.is_empty,
            hst, get_top_piece_in_range b hr hc, BoardPosition.top_piece, hcol, hsz, hblk]
      · simp [Board.is_position_empty, Board.is_valid_position, hr, hc, BoardPosition.is_empty,
          hst, get_top_piece_in_range b hr hc, BoardPosition.top_piece, hcol, hsz]


theorem mem_valid_new (b : Board) (color : PieceColor) (sz : PieceSize) (r c : Nat) :
    (r, c) ∈ b.get_valid_moves_for_new_piece color sz ↔
      r < b.size ∧ c < b.size ∧ b.new_piece_cell color sz r c = some (r, c) := by
  unfold Board.get_valid_moves_for_new_piece
  simp only [List.mem_flatMap, List.mem_filterMap, List.mem_range]
  constructor
  · rintro ⟨row, hrow, col, hcol, hsome⟩
    obtain ⟨hr1, hc1⟩ := Prod.mk.injEq .. ▸ (new_cell_shape hsome)
    subst hr1; subst hc1
    exact ⟨hrow, hcol, hsome⟩
  · rintro ⟨hrow, hcol, hsome⟩
    exact ⟨r, hrow, c, hcol, hsome⟩

/-- C5: for every board, color, and piece size, legalRelocations(color, size)
(`get_valid_moves_for_existing_piece`) is exactly the set of in-range empty
cells plus the non-empty cells whose top piece is the opposite color and
strictly smaller than the given size; and relocation covering has no
open-three precondition: `place_piece(..., is_new_piece=False)` succeeds on
exactly those cells, regardless of the opponent threat count. -/
theorem C5_relocations (b : Board) :
    (∀ (color : PieceColor) (sz : PieceSize) (r c : Nat),
      (r, c) ∈ b.get_valid_moves_for_existing_piece color sz ↔
        r < b.size ∧ c < b.size ∧
          (b.positions r c = [] ∨ specRelocCover b color sz r c)) ∧
    (∀ (p : Piece) (r c : Nat), r < b.size → c < b.size →
      ((b.place_piece p r c false).isSome = true ↔
        (b.positions r c = [] ∨ specRelocCover b p.color p.size r c))) := by
  constructor
  · intro color sz r c
    rw [mem_valid_existing]
    constructor
    · rintro ⟨hr, hc, hcell⟩
      exact ⟨hr, hc, (existing_cell_iff b color sz hr hc).mp hcell⟩
    · rintro ⟨hr, hc, hcond⟩
      exact ⟨hr, hc, (existing_cell_iff b color sz hr hc).mpr hcond⟩
  · intro p r c hr hc
    rw [place_piece_isSome_iff b p hr hc false, specRelocCover_iff b p.color p.size hr hc]
    constructor
    · rintro (h | ⟨top, rest, hst, hne, hsz, _⟩)
      · exact Or.inl h
      · exact Or.inr ⟨top, rest, hst, hne, hsz⟩
    · rintro (h | ⟨top, rest, hst, hne, hsz⟩)
      · exact Or.inl h
      · exact Or.inr ⟨top, rest, hst, hne, hsz, by simp⟩

theorem C5_relocations_witness :
    ((0, 1) ∈ boardC8.get_valid_moves_for_existing_piece PieceColor.LIGHT PieceSize.MEDIUM) ∧
      (boardC8.place_piece pieceLM 0 1 false).isSome = true :=
  ⟨((C5_relocations boardC8).1 PieceColor.LIGHT PieceSize.MEDIUM 0 1).mpr (by decide),
   ((C5_relocations boardC8).2 pieceLM 0 1 (by decide) (by decide)).mpr (by decide)⟩

/-- C1: for every board, piece, and in-range non-empty target cell, placing
the piece as a New piece succeeds iff the cell's top piece is the opponent's
color, the piece's size strictly exceeds that top piece's size, and some
line through the cell (row, column, board diagonals through it) has exactly
three opponent-topped cells with the target among them (`specNewCover`);
and legalNewPlacements (`get_valid_moves_for_new_piece`) is exactly the
in-range empty cells plus the non-empty cells passing this test. -/
theorem C1_new_placements (b : Board) :
    (∀ (p : Piece) (r c : Nat), r < b.size → c < b.size → b.positions r c ≠ [] →
      ((b.place_piece p r c true).isSome = true ↔ specNewCover b p.color p.size r c)) ∧
    (∀ (color : PieceColor) (sz : PieceSize) (r c : Nat),
      (r, c) ∈ b.get_valid_moves_for_new_piece color sz ↔
        r < b.size ∧ c < b.size ∧
          (b.positions r c = [] ∨ specNewCover b color sz r c)) := by
  constructor
  · intro p r c hr hc hne
    rw [place_piece_isSome_iff b p hr hc true, specNewCover_iff b p.color p.size hr hc]
    constructor
    · rintro (h | ⟨top, rest, hst, hcne, hsz, hblk⟩)
      · exact absurd h hne
      · exact ⟨top, rest, hst, hcne, hsz, hblk rfl⟩
    · rintro ⟨top, rest, hst, hcne, hsz, hblk⟩
      exact Or.inr ⟨top, rest, hst, hcne, hsz, fun _ => hblk⟩
  · intro color sz r c
    rw [mem_valid_new]
    constructor
    · rintro ⟨hr, hc, hcell⟩
      exact ⟨hr, hc, (new_cell_iff b color sz hr hc).mp hcell⟩
    · rintro ⟨hr, hc, hcond⟩
      exact ⟨hr, hc, (new_cell_iff b color sz hr hc).mpr hcond⟩

theorem C1_new_placements_witness :
    specNewCover boardOpen3 PieceColor.LIGHT PieceSize.MEDIUM 0 1 ∧
      ((3, 3) ∈ boardOpen3.get_valid_moves_for_new_piece PieceColor.LIGHT PieceSize.MEDIUM) :=
  ⟨((C1_new_placements boardOpen3).1 pieceLM 0 1 (by decide) (by decide) (by decide)).mp
      (by decide),
   ((C1_new_placements boardOpen3).2 PieceColor.LIGHT PieceSize.MEDIUM 3 3).mpr (by decide)⟩

theorem check_line_cons (b : Board) (p0 : Nat × Nat) (rest : List (Nat × Nat)) :
    b.check_line (p0 :: rest) =
      if (p0 :: rest).length < b.size then none
      else
        match b.get_top_piece p0.1 p0.2 with
        | none => none
        | some first_piece =>
          if rest.all (fun q =>
              match b.get_top_piece q.1 q.2 with
              | some pc => decide (pc.color = first_piece.color)
              | none => false)
          then some first_piece.color else none := rfl

theorem check_line_cons_none (b : Board) (p0 : Nat × Nat) (rest : List (Nat × Nat))
    (h : b.get_top_piece p0.1 p0.2 = none) : b.check_line (p0 :: rest) = none := by
  rw [check_line_cons, h]
  split <;> rfl

theorem check_line_cons_some (b : Board) (p0 : Nat × Nat) (rest : List (Nat × Nat))
    (fp : Piece) (h : b.get_top_piece p0.1 p0.2 = some fp) :
    b.check_line (p0 :: rest) =
      if (p0 :: rest).length < b.size then none
      else
        if rest.all (fun q =>
            match b.get_top_piece q.1 q.2 with
            | some pc => decide (pc.color = fp.color)
            | none => false)
        then some fp.color else none := by
  rw [check_line_cons, h]

theorem check_line_eq_some_iff (b : Board) {l : List (Nat × Nat)} (hlen : l.length = b.size)
    (hne : l ≠ []) (c : PieceColor) :
    b.check_line l = some c ↔ ∀ q ∈ l, topColorAt b q.1 q.2 = some c := by
  obtain ⟨p0, rest, rfl⟩ := List.exists_cons_of_ne_nil hne
  cases h : b.get_top_piece p0.1 p0.2 with
  | none =>
    rw [check_line_cons_none b p0 rest h]
    simp [List.forall_mem_cons, topColorAt, h]
  | some first_piece =>
    rw [check_line_cons_some b p0 rest first_piece h,
      if_neg (by omega : ¬ (p0 :: rest).length < b.size)]
    by_cases hall : rest.all (fun q =>
        match b.get_top_piece q.1 q.2 with
        | some pc => decide (pc.color = first_piece.color)
        | none => false) = true
    · rw [if_pos hall]
      have hrest : ∀ q ∈ rest, topColorAt b q.1 q.2 = some first_piece.color := by
        intro q hq
        exact (topMatch_iff b q first_piece.color).mp (List.all_eq_true.mp hall q hq)
      constructor
      · intro heq
        have hc0 : first_piece.color = c := Option.some.inj heq
        subst hc0
        intro q hq
        rcases List.mem_cons.mp hq with rfl | hq'
        · simp [topColorAt, h]
        · exact hrest q hq'
      · intro hall2
        have h0 := hall2 p0 (List.mem_cons_self p0 rest)
        rw [topColorAt, h] at h0
        simpa using h0
    · rw [if_neg hall]
      constructor
      · intro hx
        exact absurd hx (by simp)
      · intro hall2
        exfalso
        apply hall
        apply List.all_eq_true.mpr
        intro q hq
        have hp0 := hall2 p0 (List.mem_cons_self p0 rest)
        rw [topColorAt, h] at hp0
        have hc0 : first_piece.color = c := by simpa using hp0
        refine (topMatch_iff b q first_piece.color).mpr ?_
        rw [hc0]
        exact hall2 q (List.mem_cons_of_mem _ hq)

theorem check_line_nil_ne_some (b : Board) (c : PieceColor) : b.check_line [] ≠ some c := by
  unfold Board.check_line
  split
  · simp
  · simp

theorem map_range_ne_nil {α : Type} {n : Nat} (h : 0 < n) (g : Nat → α) :
    (List.range n).map g ≠ [] := by
  have hlen : ((List.range n).map g).length = n := by simp
  intro h0
  rw [h0] at hlen
  simp at hlen
  omega

theorem row_line_mem (b : Board) {row : Nat} (hrow : row < b.size) :
    (List.range b.size).map (fun col => (row, col)) ∈ b.lines :=
  List.mem_append_left _ (List.mem_append_left _ (List.mem_append_left _
    (List.mem_map.mpr ⟨row, List.mem_range.mpr hrow, rfl⟩)))

theorem col_line_mem (b : Board) {col : Nat} (hcol : col < b.size) :
    (List.range b.size).map (fun row => (row, col)) ∈ b.lines :=
  List.mem_append_left _ (List.mem_append_left _ (List.mem_append_right _
    (List.mem_map.mpr ⟨col, List.mem_range.mpr hcol, rfl⟩)))

theorem diag_line_mem (b : Board) :
    (List.range b.size).map (fun i => (i, i)) ∈ b.lines :=
  List.mem_append_left _ (List.mem_append_right _ (List.mem_singleton.mpr rfl))

theorem anti_line_mem (b : Board) :
    (List.range b.size).map (fun i => (i, b.size - 1 - i)) ∈ b.lines :=
  List.mem_append_right _ (List.mem_singleton.mpr rfl)

theorem lines_cases (b : Board) {l : List (Nat × Nat)} (hl : l ∈ b.lines) :
    (∃ row < b.size, l = (List.range b.size).map (fun col => (row, col))) ∨
    (∃ col < b.size, l = (List.range b.size).map (fun row => (row, col))) ∨
    l = (List.range b.size).map (fun i => (i, i)) ∨
    l = (List.range b.size).map (fun i => (i, b.size - 1 - i)) := by
  unfold Board.lines at hl
  rcases List.mem_append.mp hl with h1 | h2
  · rcases List.mem_append.mp h1 with h3 | h4
    · rcases List.mem_append.mp h3 with h5 | h6
      · obtain ⟨row, hrow, rfl⟩ := List.mem_map.mp h5
        exact Or.inl ⟨row, List.mem_range.mp hrow, rfl⟩
      · obtain ⟨col, hcol, rfl⟩ := List.mem_map.mp h6
        exact Or.inr (Or.inl ⟨col, List.mem_range.mp hcol, rfl⟩)
    · exact Or.inr (Or.inr (Or.inl (List.mem_singleton.mp h4)))
  · exact Or.inr (Or.inr (Or.inr (List.mem_singleton.mp h2)))

theorem check_winner_some_winsSpec (b : Board) {c : PieceColor}
    (h : b.check_winner = some c) : winsSpec b c := by
  obtain ⟨l, hl, hline⟩ := List.exists_of_findSome?_eq_some h
  have hlne : l ≠ [] := by
    intro h0
    subst h0
    exact check_line_nil_ne_some b c hline
  rcases lines_cases b hl with ⟨row, hrow, rfl⟩ | ⟨col, hcol, rfl⟩ | rfl | rfl
  · have hcells := (check_line_eq_some_iff b (by simp) hlne c).mp hline
    exact Or.inl ⟨row, hrow, fun col hcol =>
      hcells (row, col) (List.mem_map.mpr ⟨col, List.mem_range.mpr hcol, rfl⟩)⟩
  · have hcells := (check_line_eq_some_iff b (by simp) hlne c).mp hline
    exact Or.inr (Or.inl ⟨col, hcol, fun row hrow =>
      hcells (row, col) (List.mem_map.mpr ⟨row, List.mem_range.mpr hrow, rfl⟩)⟩)
  · have hcells := (check_line_eq_some_iff b (by simp) hlne c).mp hline
    exact Or.inr (Or.inr (Or.inl (fun i hi =>
      hcells (i, i) (List.mem_map.mpr ⟨i, List.mem_range.mpr hi, rfl⟩))))
  · have hcells := (check_line_eq_some_iff b (by simp) hlne c).mp hline
    exact Or.inr (Or.inr (Or.inr (fun i hi =>
      hcells (i, b.size - 1 - i) (List.mem_map.mpr ⟨i, List.mem_range.mpr hi, rfl⟩))))

theorem winsSpec_line_some (b : Board) (h : 0 < b.size) {c : PieceColor}
    (hws : winsSpec b c) : ∃ l ∈ b.lines, b.check_line l = some c := by
  rcases hws with ⟨row, hrow, hcells⟩ | ⟨col, hcol, hcells⟩ | hcells | hcells
  · refine ⟨(List.range b.size).map (fun col => (row, col)), row_line_mem b hrow, ?_⟩
    refine (check_line_eq_some_iff b (by simp) (map_range_ne_nil h _) c).mpr ?_
    intro q hq
    obtain ⟨col, hcol, rfl⟩ := List.mem_map.mp hq
    exact hcells col (List.mem_range.mp hcol)
  · refine ⟨(List.range b.size).map (fun row => (row, col)), col_line_mem b hcol, ?_⟩
    refine (check_line_eq_some_iff b (by simp) (map_range_ne_nil h _) c).mpr ?_
    intro q hq
    obtain ⟨row, hrow, rfl⟩ := List.mem_map.mp hq
    exact hcells row (List.mem_range.mp hrow)
  · refine ⟨(List.range b.size).map (fun i => (i, i)), diag_line_mem b, ?_⟩
    refine (check_line_eq_some_iff b (by simp) (map_range_ne_nil h _) c).mpr ?_
    intro q hq
    obtain ⟨i, hi, rfl⟩ := List.mem_map.mp hq
    exact hcells i (List.mem_range.mp hi)
  · refine ⟨(List.range b.size).map (fun i => (i, b.size - 1 - i)), anti_line_mem b, ?_⟩
    refine (check_line_eq_some_iff b (by simp) (map_range_ne_nil h _) c).mpr ?_
    intro q hq
    obtain ⟨i, hi, rfl⟩ := List.mem_map.mp hq
    exact hcells i (List.mem_range.mp hi)

theorem check_winner_none_not_winsSpec (b : Board) (h : 0 < b.size)
    (hnone : b.check_winner = none) : ∀ c, ¬ winsSpec b c := by
  intro c hws
  obtain ⟨l, hl, hline⟩ := winsSpec_line_some b h hws
  rw [List.findSome?_eq_none_iff.mp hnone l hl] at hline
  exact absurd hline (by simp)

/-- C3 counterexample: on a 3×3 board whose row 0 is all light tops and
row 1 all dark tops, `check_winner` returns LIGHT (first line in scan
order), so the claimed biconditional fails for DARK, which also has a
complete row. -/
theorem C3_checkWinner_counterexample :
    ¬ (boardDbl.check_winner = some PieceColor.DARK ↔ winsSpec boardDbl PieceColor.DARK) := by
  decide

/-- C3 (amended): for every board with N ≥ 1, `check_winner` returns some C
only if some row, column, or main diagonal has all N top pieces colored C;
it returns none iff no color has such a line; and when exactly one color has
such a line it returns that color.  (When both colors have complete lines
simultaneously it returns the first in scan order, which is why the original
biconditional fails.) -/
theorem C3_checkWinner_amended (b : Board) (h : 0 < b.size) :
    (∀ c, b.check_winner = some c → winsSpec b c) ∧
    (b.check_winner = none ↔ ∀ c, ¬ winsSpec b c) ∧
    (∀ c, winsSpec b c → ¬ winsSpec b c.opposite → b.check_winner = some c) := by
  refine ⟨fun c h' => check_winner_some_winsSpec b h', ⟨check_winner_none_not_winsSpec b h, ?_⟩, ?_⟩
  · intro hforall
    cases hcw : b.check_winner with
    | none => rfl
    | some c => exact absurd (check_winner_some_winsSpec b hcw) (hforall c)
  · intro c hws hnopp
    cases hcw : b.check_winner with
    | none => exact absurd hws (check_winner_none_not_winsSpec b h hcw c)
    | some c2 =>
      have hws2 := check_winner_some_winsSpec b hcw
      rcases PieceColor.eq_or_opposite c2 c with rfl | h2
      · rfl
      · rw [h2] at hws2
        exact absurd hws2 hnopp

theorem C3_checkWinner_amended_witness :
    boardUnit.check_winner = some PieceColor.LIGHT :=
  (C3_checkWinner_amended boardUnit (by decide)).2.2 PieceColor.LIGHT (by decide) (by decide)

theorem exec_place_fields (s : GameState) (md : MoveData) :
    ((s.execute_place_move md).2).current_color = s.current_color ∧
    ((s.execute_place_move md).2).turn_count = s.turn_count ∧
    ((s.execute_place_move md).2).max_turns = s.max_turns ∧
    ((s.execute_place_move md).2).game_over = s.game_over := by
  rcases s with ⟨bd, lp, dp, cur, tc, mt, go, w⟩
  cases cur <;>
    (unfold GameState.execute_place_move GameState.update_current_pieces GameState.current_pieces <;>
      split <;> (try simp) <;> split <;> (try simp) <;> split <;> (try simp) <;> split <;> simp)

theorem exec_piece_fields (s : GameState) (md : MoveData) :
    ((s.execute_piece_move md).2).current_color = s.current_color ∧
    ((s.execute_piece_move md).2).turn_count = s.turn_count ∧
    ((s.execute_piece_move md).2).max_turns = s.max_turns ∧
    ((s.execute_piece_move md).2).game_over = s.game_over := by
  rcases s with ⟨bd, lp, dp, cur, tc, mt, go, w⟩
  cases cur <;>
    (unfold GameState.execute_piece_move GameState.update_current_pieces GameState.current_pieces <;>
      split <;> (try simp) <;> split <;> (try simp) <;> split <;> (try simp) <;>
      split <;> (try simp) <;> split <;> (try simp) <;> split <;> (try simp) <;>
      split <;> simp)

theorem exec_move_fields (s : GameState) (mv : MoveChoice) :
    ((s.execute_move mv).2).current_color = s.current_color ∧
    ((s.execute_move mv).2).turn_count = s.turn_count ∧
    ((s.execute_move mv).2).max_turns = s.max_turns ∧
    ((s.execute_move mv).2).game_over = s.game_over := by
  unfold GameState.execute_move
  split
  · exact exec_place_fields s mv.data
  split
  · exact exec_piece_fields s mv.data
  · simp

theorem current_pieces_bump (s : GameState) :
    ({ s with turn_count := s.turn_count + 1 } : GameState).current_pieces =
      s.current_pieces := rfl

theorem board_bump (s : GameState) :
    ({ s with turn_count := s.turn_count + 1 } : GameState).board = s.board := rfl

theorem play_turn_exception (s : GameState) (h1 : s.game_over = false)
    (h2 : s.turn_count + 1 ≤ s.max_turns) :
    (s.play_turn none).game_over = true ∧
    (s.play_turn none).winner = some s.get_opponent_color := by
  unfold GameState.play_turn
  rw [if_neg (by simp [h1])]
  dsimp only
  rw [if_neg (by omega : ¬ s.max_turns < s.turn_count + 1)]
  exact ⟨rfl, rfl⟩

theorem play_turn_exec_failed (s : GameState) (mv : MoveChoice)
    (h1 : s.game_over = false) (h2 : s.turn_count + 1 ≤ s.max_turns)
    (hfail : (GameState.execute_move { s with turn_count := s.turn_count + 1 } mv).1 = false) :
    (s.play_turn (some mv)).game_over = true ∧
    (s.play_turn (some mv)).winner = some s.get_opponent_color := by
  unfold GameState.play_turn
  rw [if_neg (by simp [h1])]
  dsimp only
  rw [if_neg (by omega : ¬ s.max_turns < s.turn_count + 1)]
  rw [if_pos hfail]
  have hcur : ((GameState.execute_move { s with turn_count := s.turn_count + 1 } mv).2).current_color
      = s.current_color :=
    (exec_move_fields { s with turn_count := s.turn_count + 1 } mv).1
  exact ⟨rfl, by simp [GameState.end_game, GameState.get_opponent_color, hcur]⟩


/-- C7: in any turn within the move cap, if the active side's strategy
raises while choosing (the `none` oracle) or the returned move fails
execution, the active side forfeits immediately: the game ends with the
opponent declared winner.  Moreover an unknown move-type string, a piece the
active side does not own (place), and a piece not on top of the claimed
origin cell (move) all fail execution. -/
theorem C7_forfeiture (s : GameState) (h1 : s.game_over = false)
    (h2 : s.turn_count + 1 ≤ s.max_turns) :
    ((s.play_turn none).game_over = true ∧
     (s.play_turn none).winner = some s.get_opponent_color) ∧
    (∀ mv : MoveChoice,
      (GameState.execute_move { s with turn_count := s.turn_count + 1 } mv).1 = false →
      (s.play_turn (some mv)).game_over = true ∧
      (s.play_turn (some mv)).winner = some s.get_opponent_color) ∧
    (∀ mv : MoveChoice, mv.move_type ≠ "place" → mv.move_type ≠ "move" →
      (GameState.execute_move { s with turn_count := s.turn_count + 1 } mv).1 = false) ∧
    (∀ (gp : GPiece) (pos : Nat × Nat),
      ¬ s.current_pieces.any (fun q => q.piece.eqPy gp.piece) = true →
      (GameState.execute_move { s with turn_count := s.turn_count + 1 }
        (placeMove gp pos)).1 = false) ∧
    (∀ (p : Piece) (fp tp : Nat × Nat),
      ¬ (s.board.get_top_piece fp.1 fp.2).any (fun t => t.eqPy p) = true →
      (GameState.execute_move { s with turn_count := s.turn_count + 1 }
        (moveMove p fp tp)).1 = false) := by
  refine ⟨play_turn_exception s h1 h2,
    fun mv hf => play_turn_exec_failed s mv h1 h2 hf, ?_, ?_, ?_⟩
  · intro mv hp hm
    unfold GameState.execute_move
    rw [if_neg hp, if_neg hm]
  · intro gp pos hnot
    unfold GameState.execute_move GameState.execute_place_move placeMove
    rw [if_pos (rfl : ("place" : String) = "place")]
    dsimp only
    rw [current_pieces_bump, if_pos hnot]
  · intro p fp tp hnot
    unfold GameState.execute_move GameState.execute_piece_move moveMove
    rw [if_neg (by decide : ¬ ("move" : String) = "place"),
      if_pos (rfl : ("move" : String) = "move")]
    dsimp only
    rw [current_pieces_bump, board_bump]
    by_cases hmem : s.current_pieces.any (fun q => q.piece.eqPy p) = true
    · rw [if_neg (not_not_intro hmem), if_pos hnot]
    · rw [if_pos hmem]

theorem C7_forfeiture_witness :
    (stateFresh.play_turn none).game_over = true ∧
    (stateFresh.play_turn none).winner = some stateFresh.get_opponent_color :=
  (C7_forfeiture stateFresh rfl (by decide)).1

/-- C6: in every turn whose move is applied successfully, the state machine
checks `check_winner` first and finishes as Won(color) when a winner exists;
otherwise a full board finishes as Draw; otherwise the turn counter has been
incremented (the cap check cannot fire after a successful apply, since the
incremented counter was already checked against the cap at the start of the
turn) and the active color switches with the game continuing. -/
theorem C6_turn_resolution (s : GameState) (mv : MoveChoice)
    (h1 : s.game_over = false) (h2 : s.turn_count + 1 ≤ s.max_turns)
    (hexec : (GameState.execute_move { s with turn_count := s.turn_count + 1 } mv).1 = true) :
    (s.play_turn (some mv)).turn_count = s.turn_count + 1 ∧
    (∀ w, ((GameState.execute_move { s with turn_count := s.turn_count + 1 } mv).2).board.check_winner = some w →
      (s.play_turn (some mv)).game_over = true ∧ (s.play_turn (some mv)).winner = some w) ∧
    (((GameState.execute_move { s with turn_count := s.turn_count + 1 } mv).2).board.check_winner = none →
      ((GameState.execute_move { s with turn_count := s.turn_count + 1 } mv).2).board.is_board_full = true →
      (s.play_turn (some mv)).game_over = true ∧ (s.play_turn (some mv)).winner = none) ∧
    (((GameState.execute_move { s with turn_count := s.turn_count + 1 } mv).2).board.check_winner = none →
      ((GameState.execute_move { s with turn_count := s.turn_count + 1 } mv).2).board.is_board_full = false →
      ((s.play_turn (some mv)).max_turns < (s.play_turn (some mv)).turn_count →
        (s.play_turn (some mv)).game_over = true ∧ (s.play_turn (some mv)).winner = none) ∧
      (s.play_turn (some mv)).game_over = false ∧
      (s.play_turn (some mv)).current_color = s.get_opponent_color) := by
  obtain ⟨hcur, htc, hmt, hgo⟩ := exec_move_fields { s with turn_count := s.turn_count + 1 } mv
  unfold GameState.play_turn
  rw [if_neg (by simp [h1])]
  dsimp only
  rw [if_neg (by omega : ¬ s.max_turns < s.turn_count + 1)]
  rw [if_neg (by simp [hexec])]
  cases hcw : ((GameState.execute_move { s with turn_count := s.turn_count + 1 } mv).2).board.check_winner with
  | some w =>
    refine ⟨by simp [GameState.end_game, htc], ?_, ?_, ?_⟩
    · intro w2 hw2
      cases hw2
      exact ⟨rfl, rfl⟩
    · intro hnone
      simp at hnone
    · intro hnone
      simp at hnone
  | none =>
    by_cases hfull : ((GameState.execute_move { s with turn_count := s.turn_count + 1 } mv).2).board.is_board_full = true
    · rw [if_pos hfull]
      refine ⟨by simp [GameState.end_game, htc], ?_, ?_, ?_⟩
      · intro w2 hw2
        simp at hw2
      · intro _ _
        exact ⟨rfl, rfl⟩
      · intro _ hfull2
        rw [hfull] at hfull2
        cases hfull2
    · rw [if_neg hfull]
      refine ⟨by simp [GameState.switch_player, htc], ?_, ?_, ?_⟩
      · intro w2 hw2
        simp at hw2
      · intro _ hfull2
        rw [hfull2] at hfull
        exact absurd rfl hfull
      · intro _ _
        refine ⟨?_, ?_, ?_⟩
        · intro hcap
          have hc1 : ((((GameState.execute_move { s with turn_count := s.turn_count + 1 } mv).2)).switch_player).max_turns = s.max_turns := by
            simp [GameState.switch_player, hmt]
          have hc2 : ((((GameState.execute_move { s with turn_count := s.turn_count + 1 } mv).2)).switch_player).turn_count = s.turn_count + 1 := by
            simp [GameState.switch_player, htc]
          rw [hc1, hc2] at hcap
          omega
        · show (((GameState.execute_move { s with turn_count := s.turn_count + 1 } mv).2)).game_over = false
          rw [hgo]
          exact h1
        · show ((((GameState.execute_move { s with turn_count := s.turn_count + 1 } mv).2)).switch_player).current_color = s.get_opponent_color
          simp [GameState.switch_player, GameState.get_opponent_color, hcur]

theorem C6_turn_resolution_witness :
    (stateFresh.play_turn (some moveFresh)).turn_count = 1 ∧
    (stateFresh.play_turn (some moveFresh)).game_over = false ∧
    (stateFresh.play_turn (some moveFresh)).current_color = stateFresh.get_opponent_color := by
  have h := C6_turn_resolution stateFresh moveFresh rfl (by decide) (by decide)
  have h4 := h.2.2.2 (by decide) (by decide)
  exact ⟨h.1, h4.2.1, h4.2.2⟩


theorem random_choose_sentinel (b : Board) (pieces : List GPiece) (color : PieceColor)
    (hempty : RandomPlayer.possible_moves b pieces color = []) (pick : Nat) :
    RandomPlayer.choose_move b pieces color pick = sentinelMove := by
  unfold RandomPlayer.choose_move
  simp [hempty]

/-- C10: when the active side has no legal move (empty placement and
relocation move sets), `RandomPlayer.choose_move` returns the sentinel
`("place", {piece: None, position: None})`; `_execute_place_move` rejects
any move whose piece or position is missing (with no state change); and
playing such a turn ends the game immediately with the opponent as winner
— a forfeit, not an exception or a passed turn. -/
theorem C10_no_moves_forfeit (s : GameState) (h1 : s.game_over = false)
    (h2 : s.turn_count + 1 ≤ s.max_turns)
    (hempty : RandomPlayer.possible_moves s.board s.current_pieces s.current_color = []) :
    (∀ pick, RandomPlayer.choose_move s.board s.current_pieces s.current_color pick
      = sentinelMove) ∧
    (∀ (s2 : GameState) (md : MoveData), md.piece = none ∨ md.position = none →
      s2.execute_place_move md = (false, s2)) ∧
    (∀ pick,
      (s.play_turn (some (RandomPlayer.choose_move s.board s.current_pieces
          s.current_color pick))).game_over = true ∧
      (s.play_turn (some (RandomPlayer.choose_move s.board s.current_pieces
          s.current_color pick))).winner = some s.get_opponent_color) := by
  have hreject : ∀ (s2 : GameState) (md : MoveData), md.piece = none ∨ md.position = none →
      s2.execute_place_move md = (false, s2) := by
    rintro s2 ⟨mp, mpos, mf, mt⟩ (rfl | rfl)
    · cases mpos <;> rfl
    · cases mp <;> rfl
  refine ⟨random_choose_sentinel s.board s.current_pieces s.current_color hempty, hreject, ?_⟩
  intro pick
  rw [random_choose_sentinel s.board s.current_pieces s.current_color hempty pick]
  refine play_turn_exec_failed s sentinelMove h1 h2 ?_
  rfl

theorem C10_no_moves_forfeit_witness :
    (stateC10.play_turn (some (RandomPlayer.choose_move stateC10.board
        stateC10.current_pieces stateC10.current_color 0))).game_over = true ∧
    (stateC10.play_turn (some (RandomPlayer.choose_move stateC10.board
        stateC10.current_pieces stateC10.current_color 0))).winner =
      some stateC10.get_opponent_color :=
  (C10_no_moves_forfeit stateC10 rfl (by decide) (by decide)).2.2 0

/-- C2 failing-input evaluation (code bug): relocating the light LARGE from
(0,0) — where it covers a dark SMALL — onto the own light SMALL at (1,1) is
rejected, but the board is NOT left as it was: the restore call
`place_piece(piece, from_row, from_col)` runs with the `is_new_piece=True`
default, the uncovered dark SMALL at (0,0) is not part of an exactly-three
line, so the restore fails silently and the moved piece is left off-board:
(0,0) has lost the light LARGE, which afterwards sits on no cell at all. -/
theorem C2_relocation_not_atomic :
    (stateC2.execute_piece_move moveDataC2).1 = false ∧
    stateC2.board.positions 0 0 = [pieceL3, pieceD1] ∧
    ((stateC2.execute_piece_move moveDataC2).2).board.positions 0 0 = [pieceD1] ∧
    ((stateC2.execute_piece_move moveDataC2).2).board.positions 1 1 = [pieceL1] ∧
    ((List.range 4).all (fun r => (List.range 4).all (fun c =>
      !(((stateC2.execute_piece_move moveDataC2).2).board.positions r c).contains pieceL3)))
      = true := by
  decide


theorem greedy_choose_eq_scan (b : Board) (pieces : List GPiece) (color : PieceColor)
    (pick : Nat) :
    GreedyPlayer.choose_move b pieces color pick =
      match GreedyPlayer.deterministic_scan b pieces color with
      | some m => m
      | none => RandomPlayer.choose_move b (Player.init_pieces color) color pick := by
  unfold GreedyPlayer.choose_move GreedyPlayer.deterministic_scan GreedyPlayer.make_strategic_move
  cases GreedyPlayer.find_move_for_color b pieces color color <;>
    cases GreedyPlayer.find_blocking_move b pieces color <;>
      cases GreedyPlayer.strategic_scan b pieces color <;> rfl

theorem defensive_choose_eq_scan (b : Board) (pieces : List GPiece) (color : PieceColor)
    (pick : Nat) :
    DefensivePlayer.choose_move b pieces color pick =
      match DefensivePlayer.deterministic_scan b pieces color with
      | some m => m
      | none => RandomPlayer.choose_move b (Player.init_pieces color) color pick := by
  unfold DefensivePlayer.choose_move DefensivePlayer.deterministic_scan
    DefensivePlayer.make_defensive_move
  cases DefensivePlayer.find_winning_move b pieces color <;>
    cases DefensivePlayer.find_blocking_move b pieces color <;>
      cases DefensivePlayer.defensive_scan b pieces <;> rfl

set_option maxRecDepth 4000 in
/-- C8 counterexample: a board/inventory on which Greedy finds no winning,
blocking or strategic move and delegates to the random fallback, whose
result depends on the random draw: two invocations with identical (board,
inventory) inputs but different draws yield different moves. -/
theorem C8_determinism_counterexample :
    GreedyPlayer.choose_move boardC8 piecesC8 PieceColor.LIGHT 0 ≠
      GreedyPlayer.choose_move boardC8 piecesC8 PieceColor.LIGHT 1 := by
  decide

/-- C8 (amended): Greedy and Defensive are deterministic whenever their
winning-move, blocking-move, or strategic scan yields a move (the random
draw is then irrelevant); when all three fail they delegate to a freshly
constructed Random player, and the chosen move depends on the random draw. -/
theorem C8_determinism_amended :
    (∀ (b : Board) (pieces : List GPiece) (color : PieceColor) (p1 p2 : Nat),
      GreedyPlayer.deterministic_scan b pieces color ≠ none →
      GreedyPlayer.choose_move b pieces color p1 = GreedyPlayer.choose_move b pieces color p2) ∧
    (∀ (b : Board) (pieces : List GPiece) (color : PieceColor) (p1 p2 : Nat),
      DefensivePlayer.deterministic_scan b pieces color ≠ none →
      DefensivePlayer.choose_move b pieces color p1 =
        DefensivePlayer.choose_move b pieces color p2) := by
  constructor
  · intro b pieces color p1 p2 hds
    rw [greedy_choose_eq_scan b pieces color p1, greedy_choose_eq_scan b pieces color p2]
    cases hx : GreedyPlayer.deterministic_scan b pieces color
    · exact absurd hx hds
    · rfl
  · intro b pieces color p1 p2 hds
    rw [defensive_choose_eq_scan b pieces color p1, defensive_choose_eq_scan b pieces color p2]
    cases hx : DefensivePlayer.deterministic_scan b pieces color
    · exact absurd hx hds
    · rfl

theorem C8_determinism_amended_witness :
    GreedyPlayer.choose_move (Board.mkEmpty 4) (Player.init_pieces PieceColor.LIGHT)
        PieceColor.LIGHT 0 =
      GreedyPlayer.choose_move (Board.mkEmpty 4) (Player.init_pieces PieceColor.LIGHT)
        PieceColor.LIGHT 1 ∧
    DefensivePlayer.choose_move (Board.mkEmpty 4) (Player.init_pieces PieceColor.LIGHT)
        PieceColor.LIGHT 0 =
      DefensivePlayer.choose_move (Board.mkEmpty 4) (Player.init_pieces PieceColor.LIGHT)
        PieceColor.LIGHT 1 :=
  ⟨C8_determinism_amended.1 (Board.mkEmpty 4) (Player.init_pieces PieceColor.LIGHT)
      PieceColor.LIGHT 0 1 (by decide),
   C8_determinism_amended.2 (Board.mkEmpty 4) (Player.init_pieces PieceColor.LIGHT)
      PieceColor.LIGHT 0 1 (by decide)⟩

end Gobblet
